import Mathlib

/-! Neighbour resolution in a block-partitioned voxel grid.

A verification development for `voxblox/skeletons/neighbor_tools.h`
(`NeighborTools<VoxelType>`): the wrap-around address translation `getNeighbor`
and the shell enumeration `getNeighborsAndDistances`.

Modelling conventions.

* An Eigen 3-vector of `IndexElement` is a `Vec3` of integers.  Signed overflow
  is undefined behaviour in C++, so index arithmetic is the arithmetic of `Int`.
* The `while` loops of `getNeighbor` are run with a fuel argument that bounds
  the number of times a single loop tests its condition.  Running out of fuel
  is reported as `Outcome.outOfFuel`; a loop that never leaves (as happens for
  `voxels_per_side_ = 0`) runs out of every fuel.
* A failed glog `CHECK` aborts the process: `Outcome.checkFailed`.
* A pointer that may be null is an `Option`.
-/

namespace voxblox

/-! ## Data model -/

/-- An Eigen `Matrix<IndexElement, 3, 1>`: three integer coefficients. -/
structure Vec3 where
  x : Int
  y : Int
  z : Int
deriving DecidableEq, Repr

/-- Modelled from the spec: `IndexElement`, `BlockIndex`, `VoxelIndex` and `VoxelKey`
are declared in `voxblox/core/common.h`, which is not part of the fragment.  The spec
describes a block index as a "3D integer vector ... any integer triple is valid". -/
abbrev BlockIndex := Vec3

/-- Modelled from the spec: see `BlockIndex`; a voxel index is a
"3D integer vector identifying a voxel's position within a block". -/
abbrev VoxelIndex := Vec3

/-- Modelled from the spec: a voxel key is the "pair (BlockIndex, VoxelIndex)"; the code
reads it through `.first` and `.second`. -/
abbrev VoxelKey := BlockIndex × VoxelIndex

namespace Vec3

/-- Eigen `setZero()`. -/
def zero : Vec3 := ⟨0, 0, 0⟩

/-- Coefficient read `v(i)` for `i < 3`. -/
def coeff (v : Vec3) (i : Nat) : Int :=
  match i with
  | 0 => v.x
  | 1 => v.y
  | _ => v.z

/-- Coefficient write `v(i) = a` for `i < 3`. -/
def setCoeff (v : Vec3) (i : Nat) (a : Int) : Vec3 :=
  match i with
  | 0 => ⟨a, v.y, v.z⟩
  | 1 => ⟨v.x, a, v.z⟩
  | _ => ⟨v.x, v.y, a⟩

/-- Coefficient-wise sum, Eigen `operator+`. -/
def add (v w : Vec3) : Vec3 := ⟨v.x + w.x, v.y + w.y, v.z + w.z⟩

/-- Coefficient-wise negation, Eigen unary `operator-`. -/
def neg (v : Vec3) : Vec3 := ⟨-v.x, -v.y, -v.z⟩

end Vec3

/-- Modelled from the spec: `Layer<VoxelType>` is declared in `voxblox/core/layer.h`,
which is not part of the fragment.  The spec gives the layer one query,
"`voxels_per_side()`: the fixed edge length, in voxels, of every block"; the code stores
its value in a `size_t`. -/
structure Layer where
  voxels_per_side : Nat
deriving DecidableEq, Repr

/-- The private members of `NeighborTools`: the non-owning layer pointer
(`none` is the null pointer) and the cached block edge length. -/
structure NeighborTools where
  layer_ : Option Layer
  voxels_per_side_ : Nat
deriving DecidableEq, Repr

/-- How a call ends. -/
inductive Outcome (α : Type) where
  /-- normal return with the values written through the out-parameters -/
  | returned : α → Outcome α
  /-- a `std::length_error` leaves the function; the payload is the state of the
  out-parameters at the throw -/
  | threw : α → Outcome α
  /-- a glog `CHECK` failed and aborted the process -/
  | checkFailed : Outcome α
  /-- a `while` loop was still running when the fuel ran out -/
  | outOfFuel : Outcome α
deriving DecidableEq, Repr

/-- The contents of the out-parameters that an observer can still read after the
call: after a normal return and after a caught exception. -/
def Outcome.final {α : Type} : Outcome α → Option α
  | .returned a => some a
  | .threw a => some a
  | .checkFailed => none
  | .outOfFuel => none

/-! ## `getNeighbor` -/

/-- First loop of `getNeighbor` on one axis, lines 133-136:
`while (v < 0) { b--; v += voxels_per_side_; }`. -/
def wrapNegative (n : Nat) : Nat → Int → Int → Option (Int × Int)
  | 0, _, _ => none
  | fuel + 1, b, v => if v < 0 then wrapNegative n fuel (b - 1) (v + n) else some (b, v)

/-- Second loop of `getNeighbor` on one axis, lines 137-141:
`while (v >= static_cast<IndexElement>(voxels_per_side_)) { b++; v -= voxels_per_side_; }`.
On the integers of the model the cast is the inclusion of the naturals. -/
def wrapOverflow (n : Nat) : Nat → Int → Int → Option (Int × Int)
  | 0, _, _ => none
  | fuel + 1, b, v => if v ≥ (n : Int) then wrapOverflow n fuel (b + 1) (v - n) else some (b, v)

/-- Body of the `for (i ...)` loop of `getNeighbor`, lines 133-141, on axis `i`:
both loops act on coefficient `i` of the block and of the voxel index only. -/
def wrapAxis (n : Nat) (fuel : Nat) (i : Nat) (k : VoxelKey) : Option VoxelKey :=
  match wrapNegative n fuel (k.1.coeff i) (k.2.coeff i) with
  | none => none
  | some (b1, v1) =>
    match wrapOverflow n fuel b1 v1 with
    | none => none
    | some (b2, v2) => some (k.1.setCoeff i b2, k.2.setCoeff i v2)

/-- The loop `for (unsigned int i = 0; i < 3; ++i)` of `getNeighbor`, line 132,
over the axes still to visit. -/
def wrapAxes (n : Nat) (fuel : Nat) : List Nat → VoxelKey → Option VoxelKey
  | [], k => some k
  | i :: rest, k =>
    match wrapAxis n fuel i k with
    | none => none
    | some k1 => wrapAxes n fuel rest k1

/-- `NeighborTools::getNeighbor`, lines 119-143.  The two out-parameters are returned
as a pair (block index, voxel index); they are taken to be non-null (the `DCHECK`s of
lines 126-127 pass). -/
def getNeighbor (t : NeighborTools) (fuel : Nat) (block_index : BlockIndex)
    (voxel_index : VoxelIndex) (direction : Vec3) : Outcome VoxelKey :=
  match t.layer_ with
  | none => .checkFailed
  | some _ =>
    match wrapAxes t.voxels_per_side_ fuel [0, 1, 2]
        (block_index, voxel_index.add direction) with
    | none => .outOfFuel
    | some k => .returned k

/-- Floor-division wrap of one source voxel: on every axis the voxel is the
non-negative remainder of `V + D` by `n` and the block moves by the quotient
(`/` and `%` on `Int` round towards minus infinity for a positive divisor). -/
def floorWrap (n : Nat) (B V D : Vec3) : VoxelKey :=
  (⟨B.x + (V.x + D.x) / (n : Int), B.y + (V.y + D.y) / (n : Int), B.z + (V.z + D.z) / (n : Int)⟩,
   ⟨(V.x + D.x) % (n : Int), (V.y + D.y) % (n : Int), (V.z + D.z) % (n : Int)⟩)

/-- Fuel that lets every loop of `getNeighbor` finish on the raw index `V + D`. -/
def fuelFor (V D : Vec3) : Nat :=
  (V.x + D.x).natAbs + (V.y + D.y).natAbs + (V.z + D.z).natAbs + 1

/-- A canonical voxel index: every coefficient in `[0, n)`. -/
def Canonical (n : Nat) (V : Vec3) : Prop :=
  (0 ≤ V.x ∧ V.x < n) ∧ (0 ≤ V.y ∧ V.y < n) ∧ (0 ≤ V.z ∧ V.z < n)

instance (n : Nat) (V : Vec3) : Decidable (Canonical n V) := by
  unfold Canonical; infer_instance

/-- A direction of the 3x3x3 neighbourhood: every coefficient in `{-1, 0, 1}`. -/
def UnitDirection (D : Vec3) : Prop :=
  (-1 ≤ D.x ∧ D.x ≤ 1) ∧ (-1 ≤ D.y ∧ D.y ≤ 1) ∧ (-1 ≤ D.z ∧ D.z ≤ 1)

instance (D : Vec3) : Decidable (UnitDirection D) := by
  unfold UnitDirection; infer_instance

/-- The fuel one axis needs for the raw coefficient `v`: more than the number of
rounds of the first loop and more than the number of rounds of the second. -/
def EnoughFuel (n fuel : Nat) (v : Int) : Prop :=
  (-v).toNat < fuel ∧ (v - n + 1).toNat < fuel

/-- Fuel that lets every `getNeighbor` call of one enumeration finish: the raw index is
the source voxel moved by at most one on every axis. -/
def fuelAround (V : Vec3) : Nat :=
  V.x.natAbs + V.y.natAbs + V.z.natAbs + 4

/-! ## `getNeighborsAndDistances` -/

/-- The value appended to `distances` (a vector of `float`): the model records which
of the three constants of the source is appended, not its rounded value. -/
inductive Distance where
  /-- the literal `1.0` of line 75 -/
  | one : Distance
  /-- the constant `kSqrt2 = std::sqrt(2)` of line 58 -/
  | kSqrt2 : Distance
  /-- the constant `kSqrt3 = std::sqrt(3)` of line 59 -/
  | kSqrt3 : Distance
deriving DecidableEq, Repr

/-- The contents of the three vectors behind the out-pointers. -/
structure Outputs where
  neighbors : List VoxelKey
  distances : List Distance
  directions : List Vec3
deriving DecidableEq, Repr

/-- The mutable state of the enumeration: the local `direction` of line 66 and the
three output vectors. -/
structure EnumState where
  direction : Vec3
  neighbors : List VoxelKey
  distances : List Distance
  directions : List Vec3
deriving DecidableEq, Repr

/-- The assignment `direction(i) = a`. -/
def EnumState.assign (s : EnumState) (i : Nat) (a : Int) : EnumState :=
  ⟨s.direction.setCoeff i a, s.neighbors, s.distances, s.directions⟩

/-- The output vectors of an enumeration state. -/
def EnumState.outputs (s : EnumState) : Outputs :=
  ⟨s.neighbors, s.distances, s.directions⟩

/-- Sequencing of two statements on the same state: the second runs only after the
first returned normally. -/
def Outcome.andThen {α : Type} (r : Outcome α) (f : α → Outcome α) : Outcome α :=
  match r with
  | .returned a => f a
  | .threw a => .threw a
  | .checkFailed => .checkFailed
  | .outOfFuel => .outOfFuel

/-- The values taken by the counter of `for (int j = -1; j <= 1; j += 2)`. -/
def signs : List Int := [-1, 1]

/-- The values taken by the counter of `for (unsigned int i = 0; i < 3; ++i)`. -/
def axes : List Nat := [0, 1, 2]

/-- The three statements shared by the innermost loop bodies (lines 72-76, 88-92,
108-112): resolve the neighbour in the current `direction`, then `emplace_back` the
key, the distance constant and the direction. -/
def emplaceNeighbor (t : NeighborTools) (fuel : Nat) (block_index : BlockIndex)
    (voxel_index : VoxelIndex) (dist : Distance) (s : EnumState) : Outcome EnumState :=
  match getNeighbor t fuel block_index voxel_index s.direction with
  | .returned neighbor =>
    .returned ⟨s.direction, s.neighbors ++ [neighbor], s.distances ++ [dist],
      s.directions ++ [s.direction]⟩
  | .threw _ => .threw s
  | .checkFailed => .checkFailed
  | .outOfFuel => .outOfFuel

/-- Lines 70-77: the `j` loop of the distance-1 set on axis `i`. -/
def faceJ (t : NeighborTools) (fuel : Nat) (block_index : BlockIndex)
    (voxel_index : VoxelIndex) (i : Nat) : List Int → EnumState → Outcome EnumState
  | [], s => .returned s
  | j :: js, s =>
    (emplaceNeighbor t fuel block_index voxel_index .one (s.assign i j)).andThen
      (faceJ t fuel block_index voxel_index i js)

/-- Lines 69-79: the `i` loop of the distance-1 set; `direction(i) = 0` closes each
round. -/
def faceI (t : NeighborTools) (fuel : Nat) (block_index : BlockIndex)
    (voxel_index : VoxelIndex) : List Nat → EnumState → Outcome EnumState
  | [], s => .returned s
  | i :: is, s =>
    ((faceJ t fuel block_index voxel_index i signs s).andThen
      (fun s1 => .returned (s1.assign i 0))).andThen
      (faceI t fuel block_index voxel_index is)

/-- Lines 86-93: the `k` loop of the distance-sqrt(2) set. -/
def edgeK (t : NeighborTools) (fuel : Nat) (block_index : BlockIndex)
    (voxel_index : VoxelIndex) (next_i : Nat) : List Int → EnumState → Outcome EnumState
  | [], s => .returned s
  | k :: ks, s =>
    (emplaceNeighbor t fuel block_index voxel_index .kSqrt2 (s.assign next_i k)).andThen
      (edgeK t fuel block_index voxel_index next_i ks)

/-- Lines 84-96: the `j` loop of the distance-sqrt(2) set; both coefficients are
reset after the `k` loop. -/
def edgeJ (t : NeighborTools) (fuel : Nat) (block_index : BlockIndex)
    (voxel_index : VoxelIndex) (i next_i : Nat) : List Int → EnumState → Outcome EnumState
  | [], s => .returned s
  | j :: js, s =>
    ((edgeK t fuel block_index voxel_index next_i signs (s.assign i j)).andThen
      (fun s1 => .returned ((s1.assign i 0).assign next_i 0))).andThen
      (edgeJ t fuel block_index voxel_index i next_i js)

/-- Lines 82-97: the `i` loop of the distance-sqrt(2) set, with
`next_i = (i + 1) % 3`. -/
def edgeI (t : NeighborTools) (fuel : Nat) (block_index : BlockIndex)
    (voxel_index : VoxelIndex) : List Nat → EnumState → Outcome EnumState
  | [], s => .returned s
  | i :: is, s =>
    (edgeJ t fuel block_index voxel_index i ((i + 1) % 3) signs s).andThen
      (edgeI t fuel block_index voxel_index is)

/-- Lines 106-113: the `k` loop of the distance-sqrt(3) set. -/
def cornerK (t : NeighborTools) (fuel : Nat) (block_index : BlockIndex)
    (voxel_index : VoxelIndex) : List Int → EnumState → Outcome EnumState
  | [], s => .returned s
  | k :: ks, s =>
    (emplaceNeighbor t fuel block_index voxel_index .kSqrt3 (s.assign 2 k)).andThen
      (cornerK t fuel block_index voxel_index ks)

/-- Lines 104-114: the `j` loop of the distance-sqrt(3) set. -/
def cornerJ (t : NeighborTools) (fuel : Nat) (block_index : BlockIndex)
    (voxel_index : VoxelIndex) : List Int → EnumState → Outcome EnumState
  | [], s => .returned s
  | j :: js, s =>
    (cornerK t fuel block_index voxel_index signs (s.assign 1 j)).andThen
      (cornerJ t fuel block_index voxel_index js)

/-- Lines 102-115: the `i` loop of the distance-sqrt(3) set. -/
def cornerI (t : NeighborTools) (fuel : Nat) (block_index : BlockIndex)
    (voxel_index : VoxelIndex) : List Int → EnumState → Outcome EnumState
  | [], s => .returned s
  | i :: is, s =>
    (cornerJ t fuel block_index voxel_index signs (s.assign 0 i)).andThen
      (cornerI t fuel block_index voxel_index is)

/-- Lines 65-116: the three shells in their order, gated by `connectivity > 6` and
`connectivity > 18`. -/
def enumerateShells (t : NeighborTools) (fuel : Nat) (block_index : BlockIndex)
    (voxel_index : VoxelIndex) (connectivity : Int) (s : EnumState) : Outcome EnumState :=
  ((faceI t fuel block_index voxel_index axes s).andThen
    (fun s1 =>
      if connectivity > 6 then edgeI t fuel block_index voxel_index axes s1
      else .returned s1)).andThen
    (fun s2 =>
      if connectivity > 18 then cornerI t fuel block_index voxel_index signs s2
      else .returned s2)

/-- The observable part of an enumeration outcome. -/
def Outcome.toOutputs : Outcome EnumState → Outcome Outputs
  | .returned s => .returned s.outputs
  | .threw s => .threw s.outputs
  | .checkFailed => .checkFailed
  | .outOfFuel => .outOfFuel

/-- Lines 61-63, `neighbors->reserve(connectivity)` and its two siblings: whether the
first of them throws.  `AlignedVector` is declared in `voxblox/core/common.h` (not part
of the fragment) as a `std::vector` with Eigen's aligned allocator.  The `int` argument
converts to the unsigned `size_type`, so a negative `connectivity` becomes a value
above `max_size()` and `std::vector::reserve` throws `std::length_error` before any
vector is touched; a non-negative `int` is below `max_size()` of the three element
types for a 64-bit `size_type`, and `reserve` then changes no element.  Running out of
memory is not modelled. -/
def reserveThrows (connectivity : Int) : Bool :=
  decide (connectivity < 0)

/-- `NeighborTools::getNeighborsAndDistances`, lines 47-117.

* Lines 53-56: the four `CHECK_NOTNULL`; a null `layer_` or a null out-pointer aborts.
* Lines 61-63: the three `reserve(connectivity)`, see `reserveThrows`.
* Lines 65-116: the enumeration, starting from `direction.setZero()`. -/
def getNeighborsAndDistances (t : NeighborTools) (fuel : Nat) (block_index : BlockIndex)
    (voxel_index : VoxelIndex) (connectivity : Int) (neighbors : Option (List VoxelKey))
    (distances : Option (List Distance)) (directions : Option (List Vec3)) :
    Outcome Outputs :=
  match t.layer_, neighbors, distances, directions with
  | some _, some ns, some ds, some dirs =>
    if reserveThrows connectivity then .threw ⟨ns, ds, dirs⟩
    else
      (enumerateShells t fuel block_index voxel_index connectivity
        ⟨Vec3.zero, ns, ds, dirs⟩).toOutputs
  | _, _, _, _ => .checkFailed

/-! ## Reference listing of the shells -/

/-- The six unit vectors, in the order axis 0, 1, 2, negative then positive. -/
def faceShell : List Vec3 :=
  [⟨-1, 0, 0⟩, ⟨1, 0, 0⟩, ⟨0, -1, 0⟩, ⟨0, 1, 0⟩, ⟨0, 0, -1⟩, ⟨0, 0, 1⟩]

/-- The twelve directions with exactly two non-zero coefficients, by axis pairs
(0,1), (1,2), (2,0), each with its four sign combinations. -/
def edgeShell : List Vec3 :=
  [⟨-1, -1, 0⟩, ⟨-1, 1, 0⟩, ⟨1, -1, 0⟩, ⟨1, 1, 0⟩,
   ⟨0, -1, -1⟩, ⟨0, -1, 1⟩, ⟨0, 1, -1⟩, ⟨0, 1, 1⟩,
   ⟨-1, 0, -1⟩, ⟨1, 0, -1⟩, ⟨-1, 0, 1⟩, ⟨1, 0, 1⟩]

/-- The eight directions with three non-zero coefficients, in nested order x, y, z. -/
def cornerShell : List Vec3 :=
  [⟨-1, -1, -1⟩, ⟨-1, -1, 1⟩, ⟨-1, 1, -1⟩, ⟨-1, 1, 1⟩,
   ⟨1, -1, -1⟩, ⟨1, -1, 1⟩, ⟨1, 1, -1⟩, ⟨1, 1, 1⟩]

/-- The directions enumerated for a connectivity value, in order. -/
def shellDirections (connectivity : Int) : List Vec3 :=
  faceShell ++ (if connectivity > 6 then edgeShell else []) ++
    (if connectivity > 18 then cornerShell else [])

/-- The distance constants enumerated for a connectivity value, in order. -/
def shellDistances (connectivity : Int) : List Distance :=
  List.replicate 6 Distance.one ++
    (if connectivity > 6 then List.replicate 12 Distance.kSqrt2 else []) ++
    (if connectivity > 18 then List.replicate 8 Distance.kSqrt3 else [])

/-- The number of non-zero coefficients of a direction. -/
def nonZeroCount (D : Vec3) : Nat :=
  (if D.x = 0 then 0 else 1) + (if D.y = 0 then 0 else 1) + (if D.z = 0 then 0 else 1)

/-! ## Construction and attachment -/

/-- The default constructor, line 12: `NeighborTools() : voxels_per_side_(0) {}`.
Only `voxels_per_side_` is initialised; the pointer `layer_` keeps whatever value its
storage held, which is the argument `indeterminate` (null for an object of static
storage duration, anything for an automatic or heap object). -/
def NeighborTools.defaultConstructed (indeterminate : Option Layer) : NeighborTools :=
  ⟨indeterminate, 0⟩

/-- The layer-taking constructor, lines 13-17: `layer_(layer)`, `CHECK_NOTNULL(layer)`,
`voxels_per_side_ = layer_->voxels_per_side()`, `CHECK_NE(voxels_per_side_, 0)`.
A failed `CHECK` aborts the process, so no object is left to query. -/
def NeighborTools.fromLayer (layer : Option Layer) : Outcome NeighborTools :=
  match layer with
  | none => .checkFailed
  | some L =>
    if L.voxels_per_side ≠ 0 then .returned ⟨some L, L.voxels_per_side⟩
    else .checkFailed

/-- `NeighborTools::setLayer`, lines 19-24: `CHECK_NOTNULL(layer)`, `layer_ = layer`,
`voxels_per_side_ = layer_->voxels_per_side()`, `CHECK_NE(voxels_per_side_, 0u)`.
The previous members play no part. -/
def NeighborTools.setLayer (_t : NeighborTools) (layer : Option Layer) :
    Outcome NeighborTools :=
  match layer with
  | none => .checkFailed
  | some L =>
    if L.voxels_per_side ≠ 0 then .returned ⟨some L, L.voxels_per_side⟩
    else .checkFailed

/-- The outcome `r` of an enumeration left the entry `(key, distance, direction)` at
one position of the three output sequences. -/
def HasEntry (r : Outcome Outputs) (key : VoxelKey) (dist : Distance) (direction : Vec3) :
    Prop :=
  ∃ (out : Outputs) (i : Nat), r.final = some out ∧ out.neighbors[i]? = some key ∧
    out.distances[i]? = some dist ∧ out.directions[i]? = some direction

/-! ## The loops of `getNeighbor` -/

theorem wrapNegative_spec (n : Nat) (hn : 0 < n) :
    ∀ (fuel : Nat) (b v : Int), (-v).toNat < fuel →
      ∃ b1 v1, wrapNegative n fuel b v = some (b1, v1) ∧ b1 * n + v1 = b * n + v ∧
        0 ≤ v1 ∧ (0 ≤ v → b1 = b ∧ v1 = v) ∧ (v < 0 → v1 < n) := by
  intro fuel
  induction fuel with
  | zero => intro b v h; omega
  | succ f ih =>
    intro b v h
    by_cases hv : v < 0
    · obtain ⟨b1, v1, h1, h2, h3, h4, h5⟩ := ih (b - 1) (v + n) (by omega)
      refine ⟨b1, v1, ?_, ?_, h3, fun h0 => absurd hv (by omega), fun _ => ?_⟩
      · simp [wrapNegative, hv, h1]
      · rw [h2]; ring
      · by_cases hh : v + (n : Int) < 0
        · exact h5 hh
        · have := (h4 (by omega)).2
          omega
    · refine ⟨b, v, ?_, rfl, by omega, fun _ => ⟨rfl, rfl⟩, fun h0 => absurd h0 hv⟩
      simp [wrapNegative, hv]

theorem wrapOverflow_spec (n : Nat) (hn : 0 < n) :
    ∀ (fuel : Nat) (b v : Int), (v - n + 1).toNat < fuel → 0 ≤ v →
      ∃ b1 v1, wrapOverflow n fuel b v = some (b1, v1) ∧ b1 * n + v1 = b * n + v ∧
        0 ≤ v1 ∧ v1 < n := by
  intro fuel
  induction fuel with
  | zero => intro b v h; omega
  | succ f ih =>
    intro b v h h0
    by_cases hv : v ≥ (n : Int)
    · obtain ⟨b1, v1, h1, h2, h3, h4⟩ := ih (b + 1) (v - n) (by omega) (by omega)
      refine ⟨b1, v1, ?_, ?_, h3, h4⟩
      · simp [wrapOverflow, hv, h1]
      · rw [h2]; ring
    · refine ⟨b, v, ?_, rfl, h0, by omega⟩
      simp [wrapOverflow, hv]

/-- Both loops on one axis: with enough fuel they end in the floor-division wrap. -/
theorem wrap_scalar (n : Nat) (hn : 0 < n) (fuel : Nat) (b v : Int)
    (h : EnoughFuel n fuel v) :
    ∃ b1 v1, wrapNegative n fuel b v = some (b1, v1) ∧
      wrapOverflow n fuel b1 v1 = some (b + v / (n : Int), v % (n : Int)) := by
  obtain ⟨ha, hb⟩ := h
  obtain ⟨b1, v1, h1, h2, h3, h4, h5⟩ := wrapNegative_spec n hn fuel b v ha
  have hfuel : (v1 - n + 1).toNat < fuel := by
    by_cases hv : v < 0
    · have := h5 hv
      omega
    · have := (h4 (by omega)).2
      omega
  obtain ⟨b2, v2, g1, g2, g3, g4⟩ := wrapOverflow_spec n hn fuel b1 v1 hfuel h3
  refine ⟨b1, v1, h1, ?_⟩
  have hn0 : (0 : Int) < (n : Int) := by exact_mod_cast hn
  have key : v / (n : Int) = b2 - b ∧ v % (n : Int) = v2 := by
    rw [Int.ediv_emod_unique hn0]
    refine ⟨?_, g3, g4⟩
    have : b2 * n + v2 = b * n + v := by rw [g2, h2]
    linarith
  rw [g1, key.1, key.2]
  congr 2
  ring

theorem wrapAxis_eq (n : Nat) (hn : 0 < n) (fuel : Nat) (i : Nat) (k : VoxelKey)
    (h : EnoughFuel n fuel (k.2.coeff i)) :
    wrapAxis n fuel i k =
      some (k.1.setCoeff i (k.1.coeff i + k.2.coeff i / (n : Int)),
            k.2.setCoeff i (k.2.coeff i % (n : Int))) := by
  obtain ⟨b1, v1, h1, h2⟩ := wrap_scalar n hn fuel (k.1.coeff i) (k.2.coeff i) h
  simp [wrapAxis, h1, h2]

/-- With a non-null layer, a positive block edge and enough fuel on every axis,
`getNeighbor` returns the floor-division wrap of `V + D`. -/
theorem getNeighbor_eq_of_enough (t : NeighborTools) (L : Layer) (ht : t.layer_ = some L)
    (hn : 0 < t.voxels_per_side_) (fuel : Nat) (B V D : Vec3)
    (hx : EnoughFuel t.voxels_per_side_ fuel (V.x + D.x))
    (hy : EnoughFuel t.voxels_per_side_ fuel (V.y + D.y))
    (hz : EnoughFuel t.voxels_per_side_ fuel (V.z + D.z)) :
    getNeighbor t fuel B V D = .returned (floorWrap t.voxels_per_side_ B V D) := by
  have ex := wrapAxis_eq t.voxels_per_side_ hn fuel 0 (B, V.add D)
    (by simpa [Vec3.coeff, Vec3.add] using hx)
  have ey := fun k hk => wrapAxis_eq t.voxels_per_side_ hn fuel 1 k hk
  have ez := fun k hk => wrapAxis_eq t.voxels_per_side_ hn fuel 2 k hk
  simp only [getNeighbor, ht, wrapAxes, ex]
  rw [ey _ (by simpa [Vec3.coeff, Vec3.add, Vec3.setCoeff] using hy)]
  simp only []
  rw [ez _ (by simpa [Vec3.coeff, Vec3.add, Vec3.setCoeff] using hz)]
  simp [Vec3.coeff, Vec3.add, Vec3.setCoeff, floorWrap]

/-- The closed form of `getNeighbor` under the fuel bound `fuelFor`. -/
theorem getNeighbor_eq (t : NeighborTools) (L : Layer) (ht : t.layer_ = some L)
    (hn : 0 < t.voxels_per_side_) (fuel : Nat) (B V D : Vec3) (h : fuelFor V D ≤ fuel) :
    getNeighbor t fuel B V D = .returned (floorWrap t.voxels_per_side_ B V D) := by
  unfold fuelFor at h
  apply getNeighbor_eq_of_enough t L ht hn <;> unfold EnoughFuel <;> omega

/-- One step from a canonical voxel: two condition tests per loop are enough. -/
theorem getNeighbor_step (t : NeighborTools) (L : Layer) (ht : t.layer_ = some L)
    (hn : 0 < t.voxels_per_side_) (fuel : Nat) (B V D : Vec3) (h : 2 ≤ fuel)
    (hV : Canonical t.voxels_per_side_ V) (hD : UnitDirection D) :
    getNeighbor t fuel B V D = .returned (floorWrap t.voxels_per_side_ B V D) := by
  obtain ⟨⟨a1, a2⟩, ⟨b1, b2⟩, ⟨c1, c2⟩⟩ := hD
  obtain ⟨⟨p1, p2⟩, ⟨q1, q2⟩, ⟨r1, r2⟩⟩ := hV
  apply getNeighbor_eq_of_enough t L ht hn <;> unfold EnoughFuel <;> omega

/-- The wrapped voxel index is canonical. -/
theorem floorWrap_canonical (n : Nat) (hn : 0 < n) (B V D : Vec3) :
    Canonical n (floorWrap n B V D).2 := by
  have hn0 : (n : Int) ≠ 0 := by omega
  have hn1 : (0 : Int) < (n : Int) := by omega
  refine ⟨⟨?_, ?_⟩, ⟨?_, ?_⟩, ⟨?_, ?_⟩⟩ <;>
    first
      | exact Int.emod_nonneg _ hn0
      | exact Int.emod_lt_of_pos _ hn1

/-- The global coordinate `block * n + voxel` of the wrap is that of the source moved
by the direction. -/
theorem floorWrap_global (n : Nat) (B V D : Vec3) :
    (floorWrap n B V D).1.x * n + (floorWrap n B V D).2.x = B.x * n + V.x + D.x ∧
    (floorWrap n B V D).1.y * n + (floorWrap n B V D).2.y = B.y * n + V.y + D.y ∧
    (floorWrap n B V D).1.z * n + (floorWrap n B V D).2.z = B.z * n + V.z + D.z := by
  have hx := Int.emod_add_ediv (V.x + D.x) n
  have hy := Int.emod_add_ediv (V.y + D.y) n
  have hz := Int.emod_add_ediv (V.z + D.z) n
  refine ⟨?_, ?_, ?_⟩ <;> simp only [floorWrap] <;> linarith

/-- One axis of a unit step from a canonical coefficient. -/
theorem wrap_cases (n : Nat) (hn : 0 < n) (v d : Int) (hv : 0 ≤ v ∧ v < n)
    (hd : -1 ≤ d ∧ d ≤ 1) :
    (v = 0 ∧ d = -1 → (v + d) / (n : Int) = -1 ∧ (v + d) % (n : Int) = n - 1) ∧
    (v = n - 1 ∧ d = 1 → (v + d) / (n : Int) = 1 ∧ (v + d) % (n : Int) = 0) ∧
    (¬ (v = 0 ∧ d = -1) → ¬ (v = n - 1 ∧ d = 1) →
      (v + d) / (n : Int) = 0 ∧ (v + d) % (n : Int) = v + d) := by
  have hn0 : (0 : Int) < (n : Int) := by omega
  refine ⟨fun h => ?_, fun h => ?_, fun h1 h2 => ?_⟩
  · rw [Int.ediv_emod_unique hn0]; omega
  · rw [Int.ediv_emod_unique hn0]; omega
  · rw [Int.ediv_emod_unique hn0]; omega

/-- One axis of the way back: wrapping `r - d`, where `r` is the wrapped `v + d`,
undoes the block move and restores `v`. -/
theorem wrap_back (n : Nat) (hn : 0 < n) (v d : Int) (hv : 0 ≤ v ∧ v < n) :
    (v + d) / (n : Int) + ((v + d) % (n : Int) + -d) / (n : Int) = 0 ∧
    ((v + d) % (n : Int) + -d) % (n : Int) = v := by
  have hn0 : (0 : Int) < (n : Int) := by omega
  have h := Int.emod_add_ediv (v + d) n
  have key : ((v + d) % (n : Int) + -d) / (n : Int) = -((v + d) / (n : Int)) ∧
      ((v + d) % (n : Int) + -d) % (n : Int) = v := by
    rw [Int.ediv_emod_unique hn0]
    refine ⟨?_, hv.1, hv.2⟩
    linarith
  rw [key.1, key.2]
  exact ⟨by ring, rfl⟩

/-- One axis of a unit step from a canonical coefficient, read on the block and the
voxel: the three cases, and the two wrap cases as equivalences. -/
theorem step_axis (n : Nat) (hn : 0 < n) (b v d : Int) (hv : 0 ≤ v ∧ v < n)
    (hd : -1 ≤ d ∧ d ≤ 1) :
    ((b + (v + d) / (n : Int) = b - 1 ∧ (v + d) % (n : Int) = n - 1) ↔ (v = 0 ∧ d = -1)) ∧
    ((b + (v + d) / (n : Int) = b + 1 ∧ (v + d) % (n : Int) = 0) ↔ (v = n - 1 ∧ d = 1)) ∧
    (¬ (v = 0 ∧ d = -1) → ¬ (v = n - 1 ∧ d = 1) →
      b + (v + d) / (n : Int) = b ∧ (v + d) % (n : Int) = v + d) ∧
    (b - 1 ≤ b + (v + d) / (n : Int) ∧ b + (v + d) / (n : Int) ≤ b + 1) := by
  obtain ⟨w1, w2, w3⟩ := wrap_cases n hn v d hv hd
  by_cases c1 : v = 0 ∧ d = -1
  · obtain ⟨q, r⟩ := w1 c1
    rw [q, r]
    omega
  · by_cases c2 : v = n - 1 ∧ d = 1
    · obtain ⟨q, r⟩ := w2 c2
      rw [q, r]
      omega
    · obtain ⟨q, r⟩ := w3 c1 c2
      rw [q, r]
      omega

/-! ## The enumeration in closed form -/

/-- A `getNeighbor` call of the enumeration: fuel for the source voxel is fuel for
every direction of the 3x3x3 neighbourhood. -/
theorem getNeighbor_unit (t : NeighborTools) (L : Layer) (ht : t.layer_ = some L)
    (hn : 0 < t.voxels_per_side_) (fuel : Nat) (B V D : Vec3) (h : fuelAround V ≤ fuel)
    (hD : UnitDirection D) :
    getNeighbor t fuel B V D = .returned (floorWrap t.voxels_per_side_ B V D) := by
  apply getNeighbor_eq t L ht hn
  obtain ⟨⟨a1, a2⟩, ⟨b1, b2⟩, ⟨c1, c2⟩⟩ := hD
  unfold fuelAround at h
  unfold fuelFor
  omega

theorem emplaceNeighbor_unit (t : NeighborTools) (L : Layer) (ht : t.layer_ = some L)
    (hn : 0 < t.voxels_per_side_) (fuel : Nat) (B V : Vec3) (h : fuelAround V ≤ fuel)
    (d : Distance) (s : EnumState) (hD : UnitDirection s.direction) :
    emplaceNeighbor t fuel B V d s =
      .returned ⟨s.direction, s.neighbors ++ [floorWrap t.voxels_per_side_ B V s.direction],
        s.distances ++ [d], s.directions ++ [s.direction]⟩ := by
  simp [emplaceNeighbor, getNeighbor_unit t L ht hn fuel B V s.direction h hD]

/-- The enumeration in closed form: the shells of `shellDirections` are appended in
order, each key being the floor-division wrap of its direction. -/
theorem enumerateShells_eq (t : NeighborTools) (L : Layer) (ht : t.layer_ = some L)
    (hn : 0 < t.voxels_per_side_) (fuel : Nat) (B V : Vec3) (h : fuelAround V ≤ fuel)
    (c : Int) (ns : List VoxelKey) (ds : List Distance) (dirs : List Vec3) :
    (enumerateShells t fuel B V c ⟨Vec3.zero, ns, ds, dirs⟩).toOutputs =
      .returned ⟨ns ++ (shellDirections c).map (floorWrap t.voxels_per_side_ B V),
        ds ++ shellDistances c, dirs ++ shellDirections c⟩ := by
  have e := fun d s hD => emplaceNeighbor_unit t L ht hn fuel B V h d s hD
  by_cases h6 : c > 6
  · by_cases h18 : c > 18
    · simp [enumerateShells, faceI, faceJ, edgeI, edgeJ, edgeK, cornerI, cornerJ, cornerK,
        axes, signs, Outcome.andThen, Outcome.toOutputs, EnumState.outputs, EnumState.assign, Vec3.setCoeff, Vec3.zero, e,
        UnitDirection, h6, h18, shellDirections, shellDistances, faceShell, edgeShell,
        cornerShell, List.replicate]
    · simp [enumerateShells, faceI, faceJ, edgeI, edgeJ, edgeK,
        axes, signs, Outcome.andThen, Outcome.toOutputs, EnumState.outputs, EnumState.assign, Vec3.setCoeff, Vec3.zero, e,
        UnitDirection, h6, h18, shellDirections, shellDistances, faceShell, edgeShell,
        List.replicate]
  · have h18 : ¬ c > 18 := by omega
    simp [enumerateShells, faceI, faceJ,
      axes, signs, Outcome.andThen, Outcome.toOutputs, EnumState.outputs, EnumState.assign, Vec3.setCoeff, Vec3.zero, e,
      UnitDirection, h6, h18, shellDirections, shellDistances, faceShell,
      List.replicate]

/-- The whole call in closed form, for a non-null layer, non-null out-pointers, a
positive block edge and a non-negative connectivity. -/
theorem getNeighborsAndDistances_eq (t : NeighborTools) (L : Layer)
    (ht : t.layer_ = some L) (hn : 0 < t.voxels_per_side_) (fuel : Nat) (B V : Vec3)
    (h : fuelAround V ≤ fuel) (c : Int) (hc : 0 ≤ c) (ns : List VoxelKey)
    (ds : List Distance) (dirs : List Vec3) :
    getNeighborsAndDistances t fuel B V c (some ns) (some ds) (some dirs) =
      .returned ⟨ns ++ (shellDirections c).map (floorWrap t.voxels_per_side_ B V),
        ds ++ shellDistances c, dirs ++ shellDirections c⟩ := by
  have hc2 : ¬ c < 0 := by omega
  simp [getNeighborsAndDistances, reserveThrows, ht, hc2,
    enumerateShells_eq t L ht hn fuel B V h]

/-- A negative connectivity: `reserve` throws and the vectors keep their contents. -/
theorem getNeighborsAndDistances_neg (t : NeighborTools) (L : Layer)
    (ht : t.layer_ = some L) (fuel : Nat) (B V : Vec3) (c : Int) (hc : c < 0)
    (ns : List VoxelKey) (ds : List Distance) (dirs : List Vec3) :
    getNeighborsAndDistances t fuel B V c (some ns) (some ds) (some dirs) =
      .threw ⟨ns, ds, dirs⟩ := by
  simp [getNeighborsAndDistances, reserveThrows, ht, hc]

/-! ## The shells as sets of directions -/

theorem unit_coefficient (x : Int) (h : -1 ≤ x ∧ x ≤ 1) : x = -1 ∨ x = 0 ∨ x = 1 := by
  omega

theorem mem_faceShell_iff (D : Vec3) :
    D ∈ faceShell ↔ UnitDirection D ∧ nonZeroCount D = 1 := by
  constructor
  · intro h
    simp only [faceShell, List.mem_cons, List.mem_singleton, List.not_mem_nil, or_false] at h
    rcases h with h | h | h | h | h | h <;> subst h <;> decide
  · rintro ⟨⟨hx, hy, hz⟩, hc⟩
    obtain ⟨x, y, z⟩ := D
    rcases unit_coefficient x hx with h | h | h <;>
      rcases unit_coefficient y hy with h1 | h1 | h1 <;>
        rcases unit_coefficient z hz with h2 | h2 | h2 <;>
          subst h h1 h2 <;> revert hc <;> decide

theorem mem_edgeShell_iff (D : Vec3) :
    D ∈ edgeShell ↔ UnitDirection D ∧ nonZeroCount D = 2 := by
  constructor
  · intro h
    simp only [edgeShell, List.mem_cons, List.mem_singleton, List.not_mem_nil, or_false] at h
    rcases h with h | h | h | h | h | h | h | h | h | h | h | h <;> subst h <;> decide
  · rintro ⟨⟨hx, hy, hz⟩, hc⟩
    obtain ⟨x, y, z⟩ := D
    rcases unit_coefficient x hx with h | h | h <;>
      rcases unit_coefficient y hy with h1 | h1 | h1 <;>
        rcases unit_coefficient z hz with h2 | h2 | h2 <;>
          subst h h1 h2 <;> revert hc <;> decide

theorem mem_cornerShell_iff (D : Vec3) :
    D ∈ cornerShell ↔ UnitDirection D ∧ nonZeroCount D = 3 := by
  constructor
  · intro h
    simp only [cornerShell, List.mem_cons, List.mem_singleton, List.not_mem_nil,
      or_false] at h
    rcases h with h | h | h | h | h | h | h | h <;> subst h <;> decide
  · rintro ⟨⟨hx, hy, hz⟩, hc⟩
    obtain ⟨x, y, z⟩ := D
    rcases unit_coefficient x hx with h | h | h <;>
      rcases unit_coefficient y hy with h1 | h1 | h1 <;>
        rcases unit_coefficient z hz with h2 | h2 | h2 <;>
          subst h h1 h2 <;> revert hc <;> decide

/-- All three shells together: the non-zero directions of the 3x3x3 neighbourhood. -/
theorem mem_allShells_iff (D : Vec3) :
    D ∈ faceShell ++ edgeShell ++ cornerShell ↔ UnitDirection D ∧ D ≠ ⟨0, 0, 0⟩ := by
  constructor
  · intro h
    simp only [faceShell, edgeShell, cornerShell, List.cons_append, List.nil_append,
      List.mem_cons, List.mem_singleton, List.not_mem_nil, or_false] at h
    rcases h with h | h | h | h | h | h | h | h | h | h | h | h | h | h | h | h | h | h |
      h | h | h | h | h | h | h | h <;> subst h <;> decide
  · rintro ⟨⟨hx, hy, hz⟩, hc⟩
    obtain ⟨x, y, z⟩ := D
    rcases unit_coefficient x hx with h | h | h <;>
      rcases unit_coefficient y hy with h1 | h1 | h1 <;>
        rcases unit_coefficient z hz with h2 | h2 | h2 <;>
          subst h h1 h2 <;> revert hc <;> decide

theorem shellDirections_face (c : Int) (hc : c ≤ 6) : shellDirections c = faceShell := by
  have h1 : ¬ c > 6 := by omega
  have h2 : ¬ c > 18 := by omega
  simp [shellDirections, h1, h2]

theorem shellDirections_edge (c : Int) (h6 : 6 < c) (hc : c ≤ 18) :
    shellDirections c = faceShell ++ edgeShell := by
  have h1 : c > 6 := h6
  have h2 : ¬ c > 18 := by omega
  simp [shellDirections, h1, h2]

theorem shellDirections_corner (c : Int) (h18 : 18 < c) :
    shellDirections c = faceShell ++ edgeShell ++ cornerShell := by
  have h1 : c > 6 := by omega
  have h2 : c > 18 := h18
  simp [shellDirections, h1, h2]

theorem shellDistances_face (c : Int) (hc : c ≤ 6) :
    shellDistances c = List.replicate 6 Distance.one := by
  have h1 : ¬ c > 6 := by omega
  have h2 : ¬ c > 18 := by omega
  simp [shellDistances, h1, h2]

theorem shellDistances_edge (c : Int) (h6 : 6 < c) (hc : c ≤ 18) :
    shellDistances c =
      List.replicate 6 Distance.one ++ List.replicate 12 Distance.kSqrt2 := by
  have h1 : c > 6 := h6
  have h2 : ¬ c > 18 := by omega
  simp [shellDistances, h1, h2]

theorem shellDistances_corner (c : Int) (h18 : 18 < c) :
    shellDistances c =
      List.replicate 6 Distance.one ++ List.replicate 12 Distance.kSqrt2 ++
        List.replicate 8 Distance.kSqrt3 := by
  have h1 : c > 6 := by omega
  have h2 : c > 18 := h18
  simp [shellDistances, h1, h2]

/-- Every enumerated direction belongs to the 3x3x3 neighbourhood. -/
theorem shellDirections_unit (c : Int) (D : Vec3) (h : D ∈ shellDirections c) :
    UnitDirection D := by
  have hall : D ∈ faceShell ++ edgeShell ++ cornerShell := by
    unfold shellDirections at h
    simp only [List.mem_append] at h ⊢
    rcases h with (h | h) | h
    · exact Or.inl (Or.inl h)
    · by_cases h6 : c > 6
      · rw [if_pos h6] at h; exact Or.inl (Or.inr h)
      · rw [if_neg h6] at h; simp at h
    · by_cases h18 : c > 18
      · rw [if_pos h18] at h; exact Or.inr h
      · rw [if_neg h18] at h; simp at h
  exact ((mem_allShells_iff D).1 hall).1

/-- The three enumerated sequences have one length. -/
theorem shell_lengths (c : Int) :
    (shellDirections c).length = (shellDistances c).length := by
  by_cases h6 : c > 6 <;> by_cases h18 : c > 18 <;>
    simp [shellDirections, shellDistances, h6, h18, faceShell, edgeShell, cornerShell]

/-! ## Claims on `getNeighbor` -/

/-- C1: for every positive `voxels_per_side`, every block index and every integer
source voxel and direction (the voxel need not be canonical, the direction may have any
magnitude), `getNeighbor` returns, and the three coefficients of the returned voxel
index lie in `[0, voxels_per_side)`. -/
theorem getNeighbor_result_canonical (t : NeighborTools) (L : Layer)
    (ht : t.layer_ = some L) (hn : 0 < t.voxels_per_side_) (fuel : Nat) (B V D : Vec3)
    (h : fuelFor V D ≤ fuel) :
    ∃ B1 V1, getNeighbor t fuel B V D = .returned (B1, V1) ∧
      (0 ≤ V1.x ∧ V1.x < t.voxels_per_side_) ∧
      (0 ≤ V1.y ∧ V1.y < t.voxels_per_side_) ∧
      (0 ≤ V1.z ∧ V1.z < t.voxels_per_side_) :=
  ⟨_, _, getNeighbor_eq t L ht hn fuel B V D h,
    floorWrap_canonical t.voxels_per_side_ hn B V D⟩

theorem getNeighbor_result_canonical_witness :
    ∃ B1 V1, getNeighbor ⟨some ⟨8⟩, 8⟩ 60 ⟨2, 5, 5⟩ ⟨-9, 17, 3⟩ ⟨-20, 5, 0⟩
        = .returned (B1, V1) ∧
      (0 ≤ V1.x ∧ V1.x < (8 : Nat)) ∧ (0 ≤ V1.y ∧ V1.y < (8 : Nat)) ∧
      (0 ≤ V1.z ∧ V1.z < (8 : Nat)) :=
  getNeighbor_result_canonical ⟨some ⟨8⟩, 8⟩ ⟨8⟩ rfl (by decide) 60 ⟨2, 5, 5⟩ ⟨-9, 17, 3⟩
    ⟨-20, 5, 0⟩ (by decide)

/-- C2: for every positive `voxels_per_side`, every block index `B`, every canonical
voxel `V` and every direction `D` with coefficients in `{-1, 0, 1}`, `getNeighbor`
returns a key `(B1, V1)` and `getNeighbor` from `(B1, V1)` in the opposite direction
`-D` returns `(B, V)`. -/
theorem getNeighbor_round_trip (t : NeighborTools) (L : Layer)
    (ht : t.layer_ = some L) (hn : 0 < t.voxels_per_side_) (fuel : Nat) (B V D : Vec3)
    (h : 2 ≤ fuel) (hV : Canonical t.voxels_per_side_ V) (hD : UnitDirection D) :
    ∃ B1 V1, getNeighbor t fuel B V D = .returned (B1, V1) ∧
      getNeighbor t fuel B1 V1 D.neg = .returned (B, V) := by
  refine ⟨(floorWrap t.voxels_per_side_ B V D).1, (floorWrap t.voxels_per_side_ B V D).2,
    getNeighbor_step t L ht hn fuel B V D h hV hD, ?_⟩
  have hD2 : UnitDirection D.neg := by
    obtain ⟨⟨a1, a2⟩, ⟨b1, b2⟩, ⟨c1, c2⟩⟩ := hD
    simp only [UnitDirection, Vec3.neg]
    omega
  rw [getNeighbor_step t L ht hn fuel _ _ D.neg h
    (floorWrap_canonical t.voxels_per_side_ hn B V D) hD2]
  obtain ⟨px, py, pz⟩ := hV
  have bx := wrap_back t.voxels_per_side_ hn V.x D.x px
  have by1 := wrap_back t.voxels_per_side_ hn V.y D.y py
  have bz := wrap_back t.voxels_per_side_ hn V.z D.z pz
  simp only [floorWrap, Vec3.neg, bx.2, by1.2, bz.2, add_assoc, bx.1, by1.1, bz.1, add_zero]

theorem getNeighbor_round_trip_witness :
    ∃ B1 V1, getNeighbor ⟨some ⟨8⟩, 8⟩ 2 ⟨2, 5, 5⟩ ⟨0, 7, 3⟩ ⟨-1, 1, 0⟩
        = .returned (B1, V1) ∧
      getNeighbor ⟨some ⟨8⟩, 8⟩ 2 B1 V1 (Vec3.neg ⟨-1, 1, 0⟩)
        = .returned (⟨2, 5, 5⟩, ⟨0, 7, 3⟩) :=
  getNeighbor_round_trip ⟨some ⟨8⟩, 8⟩ ⟨8⟩ rfl (by decide) 2 ⟨2, 5, 5⟩ ⟨0, 7, 3⟩
    ⟨-1, 1, 0⟩ (by decide) (by decide) (by decide)

/-- C3: `getNeighbor` is the floor-division wrap for directions of any integer
magnitude: for every positive `voxels_per_side` `n`, every `B` and all integer `V`, `D`,
the call returns, and on each axis the returned voxel coefficient is `(V + D) mod n`,
a remainder in `[0, n)`, and the returned block coefficient is
`B + floor((V + D) / n)`, the floor being that of the rational quotient. -/
theorem getNeighbor_floor_division (t : NeighborTools) (L : Layer)
    (ht : t.layer_ = some L) (hn : 0 < t.voxels_per_side_) (fuel : Nat) (B V D : Vec3)
    (h : fuelFor V D ≤ fuel) :
    ∃ B1 V1, getNeighbor t fuel B V D = .returned (B1, V1) ∧
      (∀ i, i < 3 →
        V1.coeff i = Int.emod (V.coeff i + D.coeff i) t.voxels_per_side_ ∧
        (0 ≤ V1.coeff i ∧ V1.coeff i < t.voxels_per_side_) ∧
        B1.coeff i = B.coeff i +
          ⌊((V.coeff i + D.coeff i : Int) : ℚ) / ((t.voxels_per_side_ : Nat) : ℚ)⌋) := by
  refine ⟨_, _, getNeighbor_eq t L ht hn fuel B V D h, ?_⟩
  have hc := floorWrap_canonical t.voxels_per_side_ hn B V D
  obtain ⟨cx, cy, cz⟩ := hc
  intro i hi
  rw [Rat.floor_intCast_div_natCast]
  interval_cases i
  · exact ⟨rfl, cx, rfl⟩
  · exact ⟨rfl, cy, rfl⟩
  · exact ⟨rfl, cz, rfl⟩

theorem getNeighbor_floor_division_witness :
    ∃ B1 V1, getNeighbor ⟨some ⟨8⟩, 8⟩ 60 ⟨2, 5, 5⟩ ⟨-9, 17, 3⟩ ⟨-20, 5, 0⟩
        = .returned (B1, V1) ∧
      (∀ i, i < 3 →
        V1.coeff i = Int.emod (Vec3.coeff ⟨-9, 17, 3⟩ i + Vec3.coeff ⟨-20, 5, 0⟩ i) (8 : Nat) ∧
        (0 ≤ V1.coeff i ∧ V1.coeff i < (8 : Nat)) ∧
        B1.coeff i = Vec3.coeff ⟨2, 5, 5⟩ i +
          ⌊((Vec3.coeff ⟨-9, 17, 3⟩ i + Vec3.coeff ⟨-20, 5, 0⟩ i : Int) : ℚ) /
            ((8 : Nat) : ℚ)⌋) :=
  getNeighbor_floor_division ⟨some ⟨8⟩, 8⟩ ⟨8⟩ rfl (by decide) 60 ⟨2, 5, 5⟩ ⟨-9, 17, 3⟩
    ⟨-20, 5, 0⟩ (by decide)

/-- C10: for every positive `voxels_per_side` `n`, every canonical voxel `V` and every
direction `D` with coefficients in `{-1, 0, 1}`, `getNeighbor` returns and moves each
block axis by at most one: on axis `i` the block decreases by 1 and the voxel becomes
`n - 1` exactly when `V_i = 0` and `D_i = -1`, the block increases by 1 and the voxel
becomes 0 exactly when `V_i = n - 1` and `D_i = 1`, and otherwise the block is unchanged
and the voxel is `V_i + D_i`.  The two boundary examples for `n = 8`:
`B = (2,5,5)`, `V = (0,0,0)`, `D = (-1,0,0)` gives block `(1,5,5)`, voxel `(7,0,0)`, and
`B = (1,5,5)`, `V = (7,0,0)`, `D = (1,0,0)` gives block `(2,5,5)`, voxel `(0,0,0)`. -/
theorem getNeighbor_unit_step (t : NeighborTools) (L : Layer)
    (ht : t.layer_ = some L) (hn : 0 < t.voxels_per_side_) (fuel : Nat) (B V D : Vec3)
    (h : 2 ≤ fuel) (hV : Canonical t.voxels_per_side_ V) (hD : UnitDirection D) :
    (∃ B1 V1, getNeighbor t fuel B V D = .returned (B1, V1) ∧
      ∀ i, i < 3 →
        ((B1.coeff i = B.coeff i - 1 ∧ V1.coeff i = t.voxels_per_side_ - 1) ↔
          (V.coeff i = 0 ∧ D.coeff i = -1)) ∧
        ((B1.coeff i = B.coeff i + 1 ∧ V1.coeff i = 0) ↔
          (V.coeff i = t.voxels_per_side_ - 1 ∧ D.coeff i = 1)) ∧
        (¬ (V.coeff i = 0 ∧ D.coeff i = -1) →
          ¬ (V.coeff i = t.voxels_per_side_ - 1 ∧ D.coeff i = 1) →
          B1.coeff i = B.coeff i ∧ V1.coeff i = V.coeff i + D.coeff i) ∧
        (B.coeff i - 1 ≤ B1.coeff i ∧ B1.coeff i ≤ B.coeff i + 1)) ∧
    getNeighbor ⟨some ⟨8⟩, 8⟩ fuel ⟨2, 5, 5⟩ ⟨0, 0, 0⟩ ⟨-1, 0, 0⟩
      = .returned (⟨1, 5, 5⟩, ⟨7, 0, 0⟩) ∧
    getNeighbor ⟨some ⟨8⟩, 8⟩ fuel ⟨1, 5, 5⟩ ⟨7, 0, 0⟩ ⟨1, 0, 0⟩
      = .returned (⟨2, 5, 5⟩, ⟨0, 0, 0⟩) := by
  refine ⟨⟨(floorWrap t.voxels_per_side_ B V D).1, (floorWrap t.voxels_per_side_ B V D).2,
    getNeighbor_step t L ht hn fuel B V D h hV hD, ?_⟩, ?_, ?_⟩
  · obtain ⟨⟨a1, a2⟩, ⟨b1, b2⟩, ⟨c1, c2⟩⟩ := hD
    obtain ⟨px, py, pz⟩ := hV
    intro i hi
    interval_cases i
    · exact step_axis t.voxels_per_side_ hn B.x V.x D.x px ⟨a1, a2⟩
    · exact step_axis t.voxels_per_side_ hn B.y V.y D.y py ⟨b1, b2⟩
    · exact step_axis t.voxels_per_side_ hn B.z V.z D.z pz ⟨c1, c2⟩
  · rw [getNeighbor_step ⟨some ⟨8⟩, 8⟩ ⟨8⟩ rfl (by decide) fuel _ _ _ h (by decide)
      (by decide)]
    decide
  · rw [getNeighbor_step ⟨some ⟨8⟩, 8⟩ ⟨8⟩ rfl (by decide) fuel _ _ _ h (by decide)
      (by decide)]
    decide

theorem getNeighbor_unit_step_witness :
    (∃ B1 V1, getNeighbor ⟨some ⟨8⟩, 8⟩ 2 ⟨2, 5, 5⟩ ⟨0, 0, 0⟩ ⟨-1, 0, 0⟩
        = .returned (B1, V1) ∧
      ∀ i, i < 3 →
        ((B1.coeff i = Vec3.coeff ⟨2, 5, 5⟩ i - 1 ∧ V1.coeff i = (8 : Nat) - 1) ↔
          (Vec3.coeff ⟨0, 0, 0⟩ i = 0 ∧ Vec3.coeff ⟨-1, 0, 0⟩ i = -1)) ∧
        ((B1.coeff i = Vec3.coeff ⟨2, 5, 5⟩ i + 1 ∧ V1.coeff i = 0) ↔
          (Vec3.coeff ⟨0, 0, 0⟩ i = (8 : Nat) - 1 ∧ Vec3.coeff ⟨-1, 0, 0⟩ i = 1)) ∧
        (¬ (Vec3.coeff ⟨0, 0, 0⟩ i = 0 ∧ Vec3.coeff ⟨-1, 0, 0⟩ i = -1) →
          ¬ (Vec3.coeff ⟨0, 0, 0⟩ i = (8 : Nat) - 1 ∧ Vec3.coeff ⟨-1, 0, 0⟩ i = 1) →
          B1.coeff i = Vec3.coeff ⟨2, 5, 5⟩ i ∧
            V1.coeff i = Vec3.coeff ⟨0, 0, 0⟩ i + Vec3.coeff ⟨-1, 0, 0⟩ i) ∧
        (Vec3.coeff ⟨2, 5, 5⟩ i - 1 ≤ B1.coeff i ∧
          B1.coeff i ≤ Vec3.coeff ⟨2, 5, 5⟩ i + 1)) ∧
    getNeighbor ⟨some ⟨8⟩, 8⟩ 2 ⟨2, 5, 5⟩ ⟨0, 0, 0⟩ ⟨-1, 0, 0⟩
      = .returned (⟨1, 5, 5⟩, ⟨7, 0, 0⟩) ∧
    getNeighbor ⟨some ⟨8⟩, 8⟩ 2 ⟨1, 5, 5⟩ ⟨7, 0, 0⟩ ⟨1, 0, 0⟩
      = .returned (⟨2, 5, 5⟩, ⟨0, 0, 0⟩) :=
  getNeighbor_unit_step ⟨some ⟨8⟩, 8⟩ ⟨8⟩ rfl (by decide) 2 ⟨2, 5, 5⟩ ⟨0, 0, 0⟩
    ⟨-1, 0, 0⟩ (by decide) (by decide) (by decide)

/-! ## Claims on `getNeighborsAndDistances` -/

/-- C4, as stated, fails for a negative connectivity: with `connectivity = -1`
(a value `<= 6`) on empty outputs the call throws out of `reserve` and leaves the three
sequences empty; no amount of fuel makes it return six entries. -/
theorem faces_negative_connectivity :
    (-1 : Int) ≤ 6 ∧
    getNeighborsAndDistances ⟨some ⟨8⟩, 8⟩ 4 ⟨0, 0, 0⟩ ⟨0, 0, 0⟩ (-1)
      (some []) (some []) (some []) = .threw ⟨[], [], []⟩ ∧
    (∀ fuel out, getNeighborsAndDistances ⟨some ⟨8⟩, 8⟩ fuel ⟨0, 0, 0⟩ ⟨0, 0, 0⟩ (-1)
      (some []) (some []) (some []) ≠ .returned out) := by
  refine ⟨by decide, by decide, ?_⟩
  intro fuel out
  rw [getNeighborsAndDistances_neg ⟨some ⟨8⟩, 8⟩ ⟨8⟩ rfl fuel _ _ (-1) (by decide)]
  simp

/-- C4, amended: for every connectivity value `c` with `0 <= c <= 6` (in particular
`c = 6`), every positive `voxels_per_side` and every source `(B, V)`,
`getNeighborsAndDistances` called on empty outputs returns exactly 6 entries, every
distance is `1.0`, and the directions are exactly the six unit vectors `(+-1,0,0)`,
`(0,+-1,0)`, `(0,0,+-1)`, each once. -/
theorem faces_only (t : NeighborTools) (L : Layer) (ht : t.layer_ = some L)
    (hn : 0 < t.voxels_per_side_) (fuel : Nat) (B V : Vec3) (h : fuelAround V ≤ fuel)
    (c : Int) (hc0 : 0 ≤ c) (hc : c ≤ 6) :
    ∃ out, getNeighborsAndDistances t fuel B V c (some []) (some []) (some [])
        = .returned out ∧
      out.neighbors.length = 6 ∧ out.distances.length = 6 ∧ out.directions.length = 6 ∧
      (∀ d ∈ out.distances, d = Distance.one) ∧
      out.directions.Perm
        [⟨1, 0, 0⟩, ⟨-1, 0, 0⟩, ⟨0, 1, 0⟩, ⟨0, -1, 0⟩, ⟨0, 0, 1⟩, ⟨0, 0, -1⟩] := by
  refine ⟨_, getNeighborsAndDistances_eq t L ht hn fuel B V h c hc0 [] [] [], ?_⟩
  rw [shellDirections_face c hc, shellDistances_face c hc]
  refine ⟨by simp [faceShell], by simp, by simp [faceShell], ?_, by dsimp only; decide⟩
  intro d hd
  simp only [List.nil_append, List.mem_replicate] at hd
  exact hd.2

theorem faces_only_witness :
    ∃ out, getNeighborsAndDistances ⟨some ⟨8⟩, 8⟩ 9 ⟨2, 5, 5⟩ ⟨0, 3, 2⟩ 6
        (some []) (some []) (some []) = .returned out ∧
      out.neighbors.length = 6 ∧ out.distances.length = 6 ∧ out.directions.length = 6 ∧
      (∀ d ∈ out.distances, d = Distance.one) ∧
      out.directions.Perm
        [⟨1, 0, 0⟩, ⟨-1, 0, 0⟩, ⟨0, 1, 0⟩, ⟨0, -1, 0⟩, ⟨0, 0, 1⟩, ⟨0, 0, -1⟩] :=
  faces_only ⟨some ⟨8⟩, 8⟩ ⟨8⟩ rfl (by decide) 9 ⟨2, 5, 5⟩ ⟨0, 3, 2⟩ (by decide) 6
    (by decide) (by decide)

/-- C5: for every connectivity value `c` with `6 < c <= 18` (in particular `c = 18`),
every positive `voxels_per_side` and every source `(B, V)`, `getNeighborsAndDistances`
called on empty outputs returns exactly 18 entries: the 6 face entries returned for
`c = 6`, followed by 12 entries with distance `sqrt(2)` whose directions are exactly the
12 vectors of `{-1,0,1}^3` with exactly two non-zero coefficients, each once. -/
theorem edges_added (t : NeighborTools) (L : Layer) (ht : t.layer_ = some L)
    (hn : 0 < t.voxels_per_side_) (fuel : Nat) (B V : Vec3) (h : fuelAround V ≤ fuel)
    (c : Int) (h6 : 6 < c) (hc : c ≤ 18) :
    ∃ out6 out ks dirs,
      getNeighborsAndDistances t fuel B V 6 (some []) (some []) (some [])
        = .returned out6 ∧
      out6.neighbors.length = 6 ∧ out6.distances.length = 6 ∧
      out6.directions.length = 6 ∧
      getNeighborsAndDistances t fuel B V c (some []) (some []) (some [])
        = .returned out ∧
      out.neighbors.length = 18 ∧ out.distances.length = 18 ∧
      out.directions.length = 18 ∧
      out = ⟨out6.neighbors ++ ks, out6.distances ++ List.replicate 12 Distance.kSqrt2,
        out6.directions ++ dirs⟩ ∧
      ks.length = 12 ∧ dirs.length = 12 ∧ dirs.Nodup ∧
      (∀ D, D ∈ dirs ↔ UnitDirection D ∧ nonZeroCount D = 2) := by
  refine ⟨_, _, edgeShell.map (floorWrap t.voxels_per_side_ B V), edgeShell,
    getNeighborsAndDistances_eq t L ht hn fuel B V h 6 (by decide) [] [] [], ?_, ?_, ?_,
    getNeighborsAndDistances_eq t L ht hn fuel B V h c (by omega) [] [] [], ?_⟩
  · rw [shellDirections_face 6 (by decide)]; simp [faceShell]
  · rw [shellDistances_face 6 (by decide)]; simp
  · rw [shellDirections_face 6 (by decide)]; simp [faceShell]
  · rw [shellDirections_edge c h6 hc, shellDistances_edge c h6 hc,
      shellDirections_face 6 (by decide), shellDistances_face 6 (by decide)]
    refine ⟨by simp [faceShell, edgeShell], by simp, by simp [faceShell, edgeShell],
      by simp, by simp [edgeShell], by simp [edgeShell], by decide, mem_edgeShell_iff⟩

theorem edges_added_witness :
    ∃ out6 out ks dirs,
      getNeighborsAndDistances ⟨some ⟨8⟩, 8⟩ 9 ⟨2, 5, 5⟩ ⟨0, 3, 2⟩ 6
        (some []) (some []) (some []) = .returned out6 ∧
      out6.neighbors.length = 6 ∧ out6.distances.length = 6 ∧
      out6.directions.length = 6 ∧
      getNeighborsAndDistances ⟨some ⟨8⟩, 8⟩ 9 ⟨2, 5, 5⟩ ⟨0, 3, 2⟩ 18
        (some []) (some []) (some []) = .returned out ∧
      out.neighbors.length = 18 ∧ out.distances.length = 18 ∧
      out.directions.length = 18 ∧
      out = ⟨out6.neighbors ++ ks, out6.distances ++ List.replicate 12 Distance.kSqrt2,
        out6.directions ++ dirs⟩ ∧
      ks.length = 12 ∧ dirs.length = 12 ∧ dirs.Nodup ∧
      (∀ D, D ∈ dirs ↔ UnitDirection D ∧ nonZeroCount D = 2) :=
  edges_added ⟨some ⟨8⟩, 8⟩ ⟨8⟩ rfl (by decide) 9 ⟨2, 5, 5⟩ ⟨0, 3, 2⟩ (by decide) 18
    (by decide) (by decide)

/-- C6: for every connectivity value `c > 18` (in particular `c = 26`), every positive
`voxels_per_side` and every source `(B, V)`, `getNeighborsAndDistances` called on empty
outputs returns exactly 26 entries: the 18 entries returned for `c = 18`, followed by 8
entries with distance `sqrt(3)` whose directions have all three coefficients non-zero;
altogether the directions are exactly the 26 non-zero vectors of `{-1,0,1}^3`, each
once, and the centre `(0,0,0)` does not appear. -/
theorem corners_added (t : NeighborTools) (L : Layer) (ht : t.layer_ = some L)
    (hn : 0 < t.voxels_per_side_) (fuel : Nat) (B V : Vec3) (h : fuelAround V ≤ fuel)
    (c : Int) (h18 : 18 < c) :
    ∃ out18 out ks dirs,
      getNeighborsAndDistances t fuel B V 18 (some []) (some []) (some [])
        = .returned out18 ∧
      out18.neighbors.length = 18 ∧ out18.distances.length = 18 ∧
      out18.directions.length = 18 ∧
      getNeighborsAndDistances t fuel B V c (some []) (some []) (some [])
        = .returned out ∧
      out.neighbors.length = 26 ∧ out.distances.length = 26 ∧
      out.directions.length = 26 ∧
      out = ⟨out18.neighbors ++ ks, out18.distances ++ List.replicate 8 Distance.kSqrt3,
        out18.directions ++ dirs⟩ ∧
      ks.length = 8 ∧ dirs.length = 8 ∧
      (∀ D ∈ dirs, D.x ≠ 0 ∧ D.y ≠ 0 ∧ D.z ≠ 0) ∧
      out.directions.Nodup ∧
      (∀ D, D ∈ out.directions ↔ UnitDirection D ∧ D ≠ ⟨0, 0, 0⟩) ∧
      (⟨0, 0, 0⟩ : Vec3) ∉ out.directions := by
  refine ⟨_, _, cornerShell.map (floorWrap t.voxels_per_side_ B V), cornerShell,
    getNeighborsAndDistances_eq t L ht hn fuel B V h 18 (by decide) [] [] [], ?_, ?_, ?_,
    getNeighborsAndDistances_eq t L ht hn fuel B V h c (by omega) [] [] [], ?_⟩
  · rw [shellDirections_edge 18 (by decide) (by decide)]; simp [faceShell, edgeShell]
  · rw [shellDistances_edge 18 (by decide) (by decide)]; simp
  · rw [shellDirections_edge 18 (by decide) (by decide)]; simp [faceShell, edgeShell]
  · rw [shellDirections_corner c h18, shellDistances_corner c h18,
      shellDirections_edge 18 (by decide) (by decide),
      shellDistances_edge 18 (by decide) (by decide)]
    refine ⟨by simp [faceShell, edgeShell, cornerShell], by simp,
      by simp [faceShell, edgeShell, cornerShell], by simp, by simp [cornerShell],
      by simp [cornerShell], by decide, by dsimp only; decide, ?_, by dsimp only; decide⟩
    intro D
    simpa using mem_allShells_iff D

theorem corners_added_witness :
    ∃ out18 out ks dirs,
      getNeighborsAndDistances ⟨some ⟨8⟩, 8⟩ 9 ⟨2, 5, 5⟩ ⟨0, 3, 2⟩ 18
        (some []) (some []) (some []) = .returned out18 ∧
      out18.neighbors.length = 18 ∧ out18.distances.length = 18 ∧
      out18.directions.length = 18 ∧
      getNeighborsAndDistances ⟨some ⟨8⟩, 8⟩ 9 ⟨2, 5, 5⟩ ⟨0, 3, 2⟩ 26
        (some []) (some []) (some []) = .returned out ∧
      out.neighbors.length = 26 ∧ out.distances.length = 26 ∧
      out.directions.length = 26 ∧
      out = ⟨out18.neighbors ++ ks, out18.distances ++ List.replicate 8 Distance.kSqrt3,
        out18.directions ++ dirs⟩ ∧
      ks.length = 8 ∧ dirs.length = 8 ∧
      (∀ D ∈ dirs, D.x ≠ 0 ∧ D.y ≠ 0 ∧ D.z ≠ 0) ∧
      out.directions.Nodup ∧
      (∀ D, D ∈ out.directions ↔ UnitDirection D ∧ D ≠ ⟨0, 0, 0⟩) ∧
      (⟨0, 0, 0⟩ : Vec3) ∉ out.directions :=
  corners_added ⟨some ⟨8⟩, 8⟩ ⟨8⟩ rfl (by decide) 9 ⟨2, 5, 5⟩ ⟨0, 3, 2⟩ (by decide) 26
    (by decide)

/-- C7, as stated, fails: on empty outputs connectivity 7 and connectivity 10 return 18
entries, not the 6 entries of connectivity 6, and connectivity 20 returns 26 entries,
not the 18 entries of connectivity 18. -/
theorem between_thresholds_not_lower :
    (getNeighborsAndDistances ⟨some ⟨8⟩, 8⟩ 9 ⟨2, 5, 5⟩ ⟨0, 3, 2⟩ 6
        (some []) (some []) (some [])).final.map (fun o => o.neighbors.length) = some 6 ∧
    (getNeighborsAndDistances ⟨some ⟨8⟩, 8⟩ 9 ⟨2, 5, 5⟩ ⟨0, 3, 2⟩ 7
        (some []) (some []) (some [])).final.map (fun o => o.neighbors.length) = some 18 ∧
    (getNeighborsAndDistances ⟨some ⟨8⟩, 8⟩ 9 ⟨2, 5, 5⟩ ⟨0, 3, 2⟩ 10
        (some []) (some []) (some [])).final.map (fun o => o.neighbors.length) = some 18 ∧
    (getNeighborsAndDistances ⟨some ⟨8⟩, 8⟩ 9 ⟨2, 5, 5⟩ ⟨0, 3, 2⟩ 18
        (some []) (some []) (some [])).final.map (fun o => o.neighbors.length) = some 18 ∧
    (getNeighborsAndDistances ⟨some ⟨8⟩, 8⟩ 9 ⟨2, 5, 5⟩ ⟨0, 3, 2⟩ 20
        (some []) (some []) (some [])).final.map (fun o => o.neighbors.length) = some 26 ∧
    getNeighborsAndDistances ⟨some ⟨8⟩, 8⟩ 9 ⟨2, 5, 5⟩ ⟨0, 3, 2⟩ 7
        (some []) (some []) (some []) ≠
      getNeighborsAndDistances ⟨some ⟨8⟩, 8⟩ 9 ⟨2, 5, 5⟩ ⟨0, 3, 2⟩ 6
        (some []) (some []) (some []) ∧
    getNeighborsAndDistances ⟨some ⟨8⟩, 8⟩ 9 ⟨2, 5, 5⟩ ⟨0, 3, 2⟩ 10
        (some []) (some []) (some []) ≠
      getNeighborsAndDistances ⟨some ⟨8⟩, 8⟩ 9 ⟨2, 5, 5⟩ ⟨0, 3, 2⟩ 6
        (some []) (some []) (some []) ∧
    getNeighborsAndDistances ⟨some ⟨8⟩, 8⟩ 9 ⟨2, 5, 5⟩ ⟨0, 3, 2⟩ 20
        (some []) (some []) (some []) ≠
      getNeighborsAndDistances ⟨some ⟨8⟩, 8⟩ 9 ⟨2, 5, 5⟩ ⟨0, 3, 2⟩ 18
        (some []) (some []) (some []) := by
  decide

/-- C7, amended: a non-canonical connectivity value strictly between two thresholds
yields exactly the shell set of the next higher canonical threshold:
`getNeighborsAndDistances` with connectivity 7 or 10 returns exactly the 18 entries of
connectivity 18, and with connectivity 20 exactly the 26 entries of connectivity 26. -/
theorem between_thresholds_next_higher (t : NeighborTools) (L : Layer)
    (ht : t.layer_ = some L) (hn : 0 < t.voxels_per_side_) (fuel : Nat) (B V : Vec3)
    (h : fuelAround V ≤ fuel) :
    ∃ out18 out26,
      getNeighborsAndDistances t fuel B V 18 (some []) (some []) (some [])
        = .returned out18 ∧
      out18.neighbors.length = 18 ∧ out18.distances.length = 18 ∧
      out18.directions.length = 18 ∧
      getNeighborsAndDistances t fuel B V 26 (some []) (some []) (some [])
        = .returned out26 ∧
      out26.neighbors.length = 26 ∧ out26.distances.length = 26 ∧
      out26.directions.length = 26 ∧
      getNeighborsAndDistances t fuel B V 7 (some []) (some []) (some [])
        = .returned out18 ∧
      getNeighborsAndDistances t fuel B V 10 (some []) (some []) (some [])
        = .returned out18 ∧
      getNeighborsAndDistances t fuel B V 20 (some []) (some []) (some [])
        = .returned out26 ∧
      (∀ c : Int, 6 < c → c < 18 →
        getNeighborsAndDistances t fuel B V c (some []) (some []) (some [])
          = .returned out18) ∧
      (∀ c : Int, 18 < c → c < 26 →
        getNeighborsAndDistances t fuel B V c (some []) (some []) (some [])
          = .returned out26) := by
  have e18 : ∀ c : Int, 6 < c → c ≤ 18 →
      getNeighborsAndDistances t fuel B V c (some []) (some []) (some []) =
        .returned ⟨[] ++ (faceShell ++ edgeShell).map (floorWrap t.voxels_per_side_ B V),
          [] ++ (List.replicate 6 Distance.one ++ List.replicate 12 Distance.kSqrt2),
          [] ++ (faceShell ++ edgeShell)⟩ := by
    intro c h1 h2
    rw [getNeighborsAndDistances_eq t L ht hn fuel B V h c (by omega) [] [] [],
      shellDirections_edge c h1 h2, shellDistances_edge c h1 h2]
  have e26 : ∀ c : Int, 18 < c →
      getNeighborsAndDistances t fuel B V c (some []) (some []) (some []) =
        .returned ⟨[] ++ (faceShell ++ edgeShell ++ cornerShell).map
            (floorWrap t.voxels_per_side_ B V),
          [] ++ (List.replicate 6 Distance.one ++ List.replicate 12 Distance.kSqrt2 ++
            List.replicate 8 Distance.kSqrt3),
          [] ++ (faceShell ++ edgeShell ++ cornerShell)⟩ := by
    intro c h1
    rw [getNeighborsAndDistances_eq t L ht hn fuel B V h c (by omega) [] [] [],
      shellDirections_corner c h1, shellDistances_corner c h1]
  refine ⟨_, _, e18 18 (by decide) (by decide), by simp [faceShell, edgeShell], by simp,
    by simp [faceShell, edgeShell], e26 26 (by decide),
    by simp [faceShell, edgeShell, cornerShell], by simp,
    by simp [faceShell, edgeShell, cornerShell], e18 7 (by decide) (by decide),
    e18 10 (by decide) (by decide), e26 20 (by decide),
    fun c h1 h2 => e18 c h1 (by omega), fun c h1 _ => e26 c h1⟩

theorem between_thresholds_next_higher_witness :
    ∃ out18 out26,
      getNeighborsAndDistances ⟨some ⟨8⟩, 8⟩ 9 ⟨2, 5, 5⟩ ⟨0, 3, 2⟩ 18
        (some []) (some []) (some []) = .returned out18 ∧
      out18.neighbors.length = 18 ∧ out18.distances.length = 18 ∧
      out18.directions.length = 18 ∧
      getNeighborsAndDistances ⟨some ⟨8⟩, 8⟩ 9 ⟨2, 5, 5⟩ ⟨0, 3, 2⟩ 26
        (some []) (some []) (some []) = .returned out26 ∧
      out26.neighbors.length = 26 ∧ out26.distances.length = 26 ∧
      out26.directions.length = 26 ∧
      getNeighborsAndDistances ⟨some ⟨8⟩, 8⟩ 9 ⟨2, 5, 5⟩ ⟨0, 3, 2⟩ 7
        (some []) (some []) (some []) = .returned out18 ∧
      getNeighborsAndDistances ⟨some ⟨8⟩, 8⟩ 9 ⟨2, 5, 5⟩ ⟨0, 3, 2⟩ 10
        (some []) (some []) (some []) = .returned out18 ∧
      getNeighborsAndDistances ⟨some ⟨8⟩, 8⟩ 9 ⟨2, 5, 5⟩ ⟨0, 3, 2⟩ 20
        (some []) (some []) (some []) = .returned out26 ∧
      (∀ c : Int, 6 < c → c < 18 →
        getNeighborsAndDistances ⟨some ⟨8⟩, 8⟩ 9 ⟨2, 5, 5⟩ ⟨0, 3, 2⟩ c
          (some []) (some []) (some []) = .returned out18) ∧
      (∀ c : Int, 18 < c → c < 26 →
        getNeighborsAndDistances ⟨some ⟨8⟩, 8⟩ 9 ⟨2, 5, 5⟩ ⟨0, 3, 2⟩ c
          (some []) (some []) (some []) = .returned out26) :=
  between_thresholds_next_higher ⟨some ⟨8⟩, 8⟩ ⟨8⟩ rfl (by decide) 9 ⟨2, 5, 5⟩ ⟨0, 3, 2⟩
    (by decide)

/-- C8: for every connectivity, every positive `voxels_per_side` and every source
`(B, V)`, the three sequences grow by the same number of entries (whatever they held
before, and by none when a negative connectivity makes `reserve` throw), and for every
position `i` of the appended part the key at `i` is what `getNeighbor(B, V, direction
at i)` returns: the stored direction is the raw offset from the source to that
neighbour in global coordinates `block * n + voxel`, and the stored key is canonical. -/
theorem lock_step (t : NeighborTools) (L : Layer) (ht : t.layer_ = some L)
    (hn : 0 < t.voxels_per_side_) (fuel : Nat) (B V : Vec3) (h : fuelAround V ≤ fuel)
    (c : Int) (ns : List VoxelKey) (ds : List Distance) (dirs : List Vec3) :
    ∃ ks dd dr,
      (getNeighborsAndDistances t fuel B V c (some ns) (some ds) (some dirs)).final
        = some ⟨ns ++ ks, ds ++ dd, dirs ++ dr⟩ ∧
      (0 ≤ c → getNeighborsAndDistances t fuel B V c (some ns) (some ds) (some dirs)
        = .returned ⟨ns ++ ks, ds ++ dd, dirs ++ dr⟩) ∧
      ks.length = dd.length ∧ dd.length = dr.length ∧
      ∀ (i : Nat) (k : VoxelKey), ks[i]? = some k →
        ∃ D, dr[i]? = some D ∧ getNeighbor t fuel B V D = .returned k ∧
          Canonical t.voxels_per_side_ k.2 ∧
          k.1.x * t.voxels_per_side_ + k.2.x = B.x * t.voxels_per_side_ + V.x + D.x ∧
          k.1.y * t.voxels_per_side_ + k.2.y = B.y * t.voxels_per_side_ + V.y + D.y ∧
          k.1.z * t.voxels_per_side_ + k.2.z = B.z * t.voxels_per_side_ + V.z + D.z := by
  by_cases hc : c < 0
  · refine ⟨[], [], [], ?_, fun h0 => absurd hc (by omega), rfl, rfl, ?_⟩
    · rw [getNeighborsAndDistances_neg t L ht fuel B V c hc]
      simp [Outcome.final]
    · intro i k hk
      simp at hk
  · have e := getNeighborsAndDistances_eq t L ht hn fuel B V h c (by omega) ns ds dirs
    refine ⟨(shellDirections c).map (floorWrap t.voxels_per_side_ B V), shellDistances c,
      shellDirections c, ?_, fun _ => e, ?_, (shell_lengths c).symm, ?_⟩
    · rw [e]; rfl
    · rw [List.length_map]; exact shell_lengths c
    · intro i k hk
      rw [List.getElem?_map] at hk
      cases hD : (shellDirections c)[i]? with
      | none => rw [hD] at hk; simp at hk
      | some D =>
        rw [hD] at hk
        simp only [Option.map_some', Option.some.injEq] at hk
        subst hk
        exact ⟨D, rfl,
          getNeighbor_unit t L ht hn fuel B V D h
            (shellDirections_unit c D (List.getElem?_mem hD)),
          floorWrap_canonical t.voxels_per_side_ hn B V D,
          floorWrap_global t.voxels_per_side_ B V D⟩

theorem lock_step_witness :
    ∃ ks dd dr,
      (getNeighborsAndDistances ⟨some ⟨8⟩, 8⟩ 9 ⟨2, 5, 5⟩ ⟨0, 3, 2⟩ 26
        (some [(⟨0, 0, 0⟩, ⟨1, 1, 1⟩)]) (some []) (some [⟨0, 0, 1⟩, ⟨0, 1, 0⟩])).final
        = some ⟨[(⟨0, 0, 0⟩, ⟨1, 1, 1⟩)] ++ ks, [] ++ dd, [⟨0, 0, 1⟩, ⟨0, 1, 0⟩] ++ dr⟩ ∧
      ((0 : Int) ≤ 26 →
        getNeighborsAndDistances ⟨some ⟨8⟩, 8⟩ 9 ⟨2, 5, 5⟩ ⟨0, 3, 2⟩ 26
          (some [(⟨0, 0, 0⟩, ⟨1, 1, 1⟩)]) (some []) (some [⟨0, 0, 1⟩, ⟨0, 1, 0⟩])
        = .returned
          ⟨[(⟨0, 0, 0⟩, ⟨1, 1, 1⟩)] ++ ks, [] ++ dd, [⟨0, 0, 1⟩, ⟨0, 1, 0⟩] ++ dr⟩) ∧
      ks.length = dd.length ∧ dd.length = dr.length ∧
      ∀ (i : Nat) (k : VoxelKey), ks[i]? = some k →
        ∃ D, dr[i]? = some D ∧
          getNeighbor ⟨some ⟨8⟩, 8⟩ 9 ⟨2, 5, 5⟩ ⟨0, 3, 2⟩ D = .returned k ∧
          Canonical 8 k.2 ∧
          k.1.x * (8 : Nat) + k.2.x = (2 : Int) * (8 : Nat) + 0 + D.x ∧
          k.1.y * (8 : Nat) + k.2.y = (5 : Int) * (8 : Nat) + 3 + D.y ∧
          k.1.z * (8 : Nat) + k.2.z = (5 : Int) * (8 : Nat) + 2 + D.z :=
  lock_step ⟨some ⟨8⟩, 8⟩ ⟨8⟩ rfl (by decide) 9 ⟨2, 5, 5⟩ ⟨0, 3, 2⟩ (by decide) 26
    [(⟨0, 0, 0⟩, ⟨1, 1, 1⟩)] [] [⟨0, 0, 1⟩, ⟨0, 1, 0⟩]

/-- C9: `getNeighborsAndDistances` only appends: for any prior contents of the three
output sequences (of possibly different lengths) and every connectivity, each sequence
after the call is its prior contents followed by the entries the call leaves on empty
outputs; no existing element is removed, changed or reordered. -/
theorem only_appends (t : NeighborTools) (L : Layer) (ht : t.layer_ = some L)
    (hn : 0 < t.voxels_per_side_) (fuel : Nat) (B V : Vec3) (h : fuelAround V ≤ fuel)
    (c : Int) (ns : List VoxelKey) (ds : List Distance) (dirs : List Vec3) :
    ∃ e : Outputs,
      (getNeighborsAndDistances t fuel B V c (some []) (some []) (some [])).final
        = some e ∧
      (getNeighborsAndDistances t fuel B V c (some ns) (some ds) (some dirs)).final
        = some ⟨ns ++ e.neighbors, ds ++ e.distances, dirs ++ e.directions⟩ ∧
      (0 ≤ c →
        getNeighborsAndDistances t fuel B V c (some []) (some []) (some [])
          = .returned e ∧
        getNeighborsAndDistances t fuel B V c (some ns) (some ds) (some dirs)
          = .returned ⟨ns ++ e.neighbors, ds ++ e.distances, dirs ++ e.directions⟩) := by
  by_cases hc : c < 0
  · refine ⟨⟨[], [], []⟩, ?_, ?_, fun h0 => absurd hc (by omega)⟩
    · rw [getNeighborsAndDistances_neg t L ht fuel B V c hc]; rfl
    · rw [getNeighborsAndDistances_neg t L ht fuel B V c hc]
      simp [Outcome.final]
  · have e0 := getNeighborsAndDistances_eq t L ht hn fuel B V h c (by omega) [] [] []
    have e1 := getNeighborsAndDistances_eq t L ht hn fuel B V h c (by omega) ns ds dirs
    refine ⟨_, ?_, ?_, fun _ => ⟨e0, ?_⟩⟩
    · rw [e0]; rfl
    · rw [e1]; rfl
    · rw [e1]; rfl

theorem only_appends_witness :
    ∃ e : Outputs,
      (getNeighborsAndDistances ⟨some ⟨8⟩, 8⟩ 9 ⟨2, 5, 5⟩ ⟨0, 3, 2⟩ 18
        (some []) (some []) (some [])).final = some e ∧
      (getNeighborsAndDistances ⟨some ⟨8⟩, 8⟩ 9 ⟨2, 5, 5⟩ ⟨0, 3, 2⟩ 18
        (some [(⟨0, 0, 0⟩, ⟨1, 1, 1⟩)]) (some []) (some [⟨0, 0, 1⟩, ⟨0, 1, 0⟩])).final
        = some ⟨[(⟨0, 0, 0⟩, ⟨1, 1, 1⟩)] ++ e.neighbors, [] ++ e.distances,
            [⟨0, 0, 1⟩, ⟨0, 1, 0⟩] ++ e.directions⟩ ∧
      ((0 : Int) ≤ 18 →
        getNeighborsAndDistances ⟨some ⟨8⟩, 8⟩ 9 ⟨2, 5, 5⟩ ⟨0, 3, 2⟩ 18
          (some []) (some []) (some []) = .returned e ∧
        getNeighborsAndDistances ⟨some ⟨8⟩, 8⟩ 9 ⟨2, 5, 5⟩ ⟨0, 3, 2⟩ 18
          (some [(⟨0, 0, 0⟩, ⟨1, 1, 1⟩)]) (some []) (some [⟨0, 0, 1⟩, ⟨0, 1, 0⟩])
          = .returned ⟨[(⟨0, 0, 0⟩, ⟨1, 1, 1⟩)] ++ e.neighbors, [] ++ e.distances,
            [⟨0, 0, 1⟩, ⟨0, 1, 0⟩] ++ e.directions⟩) :=
  only_appends ⟨some ⟨8⟩, 8⟩ ⟨8⟩ rfl (by decide) 9 ⟨2, 5, 5⟩ ⟨0, 3, 2⟩ (by decide) 18
    [(⟨0, 0, 0⟩, ⟨1, 1, 1⟩)] [] [⟨0, 0, 1⟩, ⟨0, 1, 0⟩]

/-! ## Termination of the loops -/

/-- The second loop ends from any start, once the fuel exceeds its number of rounds. -/
theorem wrapOverflow_terminates (n : Nat) (hn : 0 < n) :
    ∀ (fuel : Nat) (b v : Int), (v - n + 1).toNat < fuel →
      ∃ r, wrapOverflow n fuel b v = some r := by
  intro fuel
  induction fuel with
  | zero => intro b v h; omega
  | succ f ih =>
    intro b v h
    by_cases hv : v ≥ (n : Int)
    · obtain ⟨r, hr⟩ := ih (b + 1) (v - n) (by omega)
      exact ⟨r, by simp [wrapOverflow, hv, hr]⟩
    · exact ⟨(b, v), by simp [wrapOverflow, hv]⟩

/-- With a block edge of zero the first loop, when it ends, ends on a non-negative
coefficient. -/
theorem wrapNegative_zero_nonneg :
    ∀ (fuel : Nat) (b v b1 v1 : Int), wrapNegative 0 fuel b v = some (b1, v1) → 0 ≤ v1 := by
  intro fuel
  induction fuel with
  | zero => intro b v b1 v1 h; simp [wrapNegative] at h
  | succ f ih =>
    intro b v b1 v1 h
    by_cases hv : v < 0
    · simp only [wrapNegative, hv, if_true] at h
      exact ih _ _ _ _ h
    · simp only [wrapNegative, hv, if_false, Option.some.injEq, Prod.mk.injEq] at h
      omega

/-- With a block edge of zero the second loop never ends on a non-negative
coefficient. -/
theorem wrapOverflow_zero_none :
    ∀ (fuel : Nat) (b v : Int), 0 ≤ v → wrapOverflow 0 fuel b v = none := by
  intro fuel
  induction fuel with
  | zero => intro b v _; rfl
  | succ f ih =>
    intro b v h
    have hv : v ≥ ((0 : Nat) : Int) := by simpa using h
    simp only [wrapOverflow, hv, if_true]
    exact ih _ _ (by simpa using h)

theorem wrapAxis_zero_none (fuel : Nat) (i : Nat) (k : VoxelKey) :
    wrapAxis 0 fuel i k = none := by
  unfold wrapAxis
  cases h : wrapNegative 0 fuel (k.1.coeff i) (k.2.coeff i) with
  | none => rfl
  | some r =>
    obtain ⟨b1, v1⟩ := r
    have h0 := wrapNegative_zero_nonneg fuel _ _ b1 v1 h
    simp [wrapOverflow_zero_none fuel b1 v1 h0]

/-- A query on a resolver with a non-null `layer_` and `voxels_per_side_ = 0` passes
the null check and never leaves the loops of the first axis. -/
theorem getNeighbor_zero_edge (L : Layer) (fuel : Nat) (B V D : Vec3) :
    getNeighbor ⟨some L, 0⟩ fuel B V D = .outOfFuel := by
  simp [getNeighbor, wrapAxes, wrapAxis_zero_none]

/-! ## Further claims on `getNeighbor` -/

/-- C11: for every positive `voxels_per_side`, every block index `B` and every
canonical voxel `V`, `getNeighbor(B, V, (0,0,0))` returns `(B, V)`. -/
theorem getNeighbor_zero_direction (t : NeighborTools) (L : Layer)
    (ht : t.layer_ = some L) (hn : 0 < t.voxels_per_side_) (fuel : Nat) (B V : Vec3)
    (h : 1 ≤ fuel) (hV : Canonical t.voxels_per_side_ V) :
    getNeighbor t fuel B V ⟨0, 0, 0⟩ = .returned (B, V) := by
  obtain ⟨⟨p1, p2⟩, ⟨q1, q2⟩, ⟨r1, r2⟩⟩ := hV
  rw [getNeighbor_eq_of_enough t L ht hn fuel B V ⟨0, 0, 0⟩
    (by unfold EnoughFuel; dsimp only; omega) (by unfold EnoughFuel; dsimp only; omega)
    (by unfold EnoughFuel; dsimp only; omega)]
  simp only [floorWrap, add_zero, Int.emod_eq_of_lt p1 p2, Int.emod_eq_of_lt q1 q2,
    Int.emod_eq_of_lt r1 r2, Int.ediv_eq_zero_of_lt p1 p2, Int.ediv_eq_zero_of_lt q1 q2,
    Int.ediv_eq_zero_of_lt r1 r2]

theorem getNeighbor_zero_direction_witness :
    getNeighbor ⟨some ⟨8⟩, 8⟩ 1 ⟨2, 5, 5⟩ ⟨0, 7, 3⟩ ⟨0, 0, 0⟩
      = .returned (⟨2, 5, 5⟩, ⟨0, 7, 3⟩) :=
  getNeighbor_zero_direction ⟨some ⟨8⟩, 8⟩ ⟨8⟩ rfl (by decide) 1 ⟨2, 5, 5⟩ ⟨0, 7, 3⟩
    (by decide) (by decide)

/-- C12: for every positive `voxels_per_side` `n` and all integer inputs, both
wrap-around loops of `getNeighbor` terminate (every round of the first loop moves a
negative coefficient `n` closer to zero, every round of the second moves a coefficient
`>= n` closer to `n - 1` by `n`), so with enough fuel neither `getNeighbor` nor
`getNeighborsAndDistances` is still running: each ends, and with a non-null layer (and
non-null out-pointers) each ends with the out-parameters written or left as they
were. -/
theorem loops_terminate (t : NeighborTools) (hn : 0 < t.voxels_per_side_) (B V D : Vec3)
    (c : Int) (neighbors : Option (List VoxelKey)) (distances : Option (List Distance))
    (directions : Option (List Vec3)) :
    (∀ b v : Int, ∃ fuel0, ∀ fuel, fuel0 ≤ fuel →
      (∃ r, wrapNegative t.voxels_per_side_ fuel b v = some r) ∧
      (∃ r, wrapOverflow t.voxels_per_side_ fuel b v = some r)) ∧
    (∀ (fuel : Nat) (b v : Int), v < 0 →
      wrapNegative t.voxels_per_side_ (fuel + 1) b v
        = wrapNegative t.voxels_per_side_ fuel (b - 1) (v + t.voxels_per_side_) ∧
      0 < (-v).toNat ∧
      (-(v + t.voxels_per_side_)).toNat = (-v).toNat - t.voxels_per_side_) ∧
    (∀ (fuel : Nat) (b v : Int), v ≥ (t.voxels_per_side_ : Int) →
      wrapOverflow t.voxels_per_side_ (fuel + 1) b v
        = wrapOverflow t.voxels_per_side_ fuel (b + 1) (v - t.voxels_per_side_) ∧
      0 < (v - t.voxels_per_side_ + 1).toNat ∧
      (v - t.voxels_per_side_ - t.voxels_per_side_ + 1).toNat
        = (v - t.voxels_per_side_ + 1).toNat - t.voxels_per_side_) ∧
    (∃ fuel0, ∀ fuel, fuel0 ≤ fuel →
      getNeighbor t fuel B V D ≠ .outOfFuel ∧
      (t.layer_ ≠ none → ∃ k, getNeighbor t fuel B V D = .returned k) ∧
      getNeighborsAndDistances t fuel B V c neighbors distances directions
        ≠ .outOfFuel ∧
      (t.layer_ ≠ none → neighbors ≠ none → distances ≠ none → directions ≠ none →
        ∃ out, (getNeighborsAndDistances t fuel B V c neighbors distances
          directions).final = some out)) := by
  refine ⟨?_, ?_, ?_, ?_⟩
  · intro b v
    refine ⟨(-v).toNat + (v - t.voxels_per_side_ + 1).toNat + 1, fun fuel hf => ⟨?_, ?_⟩⟩
    · obtain ⟨b1, v1, h1, _⟩ := wrapNegative_spec t.voxels_per_side_ hn fuel b v (by omega)
      exact ⟨_, h1⟩
    · exact wrapOverflow_terminates t.voxels_per_side_ hn fuel b v (by omega)
  · intro fuel b v hv
    refine ⟨by simp [wrapNegative, hv], by omega, by omega⟩
  · intro fuel b v hv
    refine ⟨by simp [wrapOverflow, hv], by omega, by omega⟩
  · refine ⟨fuelFor V D + fuelAround V, fun fuel hf => ?_⟩
    cases ht : t.layer_ with
    | none =>
      refine ⟨by simp [getNeighbor, ht], fun h => absurd rfl h, ?_, fun h => absurd rfl h⟩
      simp [getNeighborsAndDistances, ht]
    | some L =>
      have e1 := getNeighbor_eq t L ht hn fuel B V D (by omega)
      refine ⟨by rw [e1]; simp, fun _ => ⟨_, e1⟩, ?_, ?_⟩
      · cases neighbors with
        | none => simp [getNeighborsAndDistances, ht]
        | some ns =>
          cases distances with
          | none => simp [getNeighborsAndDistances, ht]
          | some ds =>
            cases directions with
            | none => simp [getNeighborsAndDistances, ht]
            | some dirs =>
              by_cases hc : c < 0
              · rw [getNeighborsAndDistances_neg t L ht fuel B V c hc]; simp
              · rw [getNeighborsAndDistances_eq t L ht hn fuel B V (by omega) c
                  (by omega)]
                simp
      · intro _ h1 h2 h3
        obtain ⟨ns, rfl⟩ := Option.ne_none_iff_exists'.1 h1
        obtain ⟨ds, rfl⟩ := Option.ne_none_iff_exists'.1 h2
        obtain ⟨dirs, rfl⟩ := Option.ne_none_iff_exists'.1 h3
        by_cases hc : c < 0
        · rw [getNeighborsAndDistances_neg t L ht fuel B V c hc]
          exact ⟨_, rfl⟩
        · rw [getNeighborsAndDistances_eq t L ht hn fuel B V (by omega) c (by omega)]
          exact ⟨_, rfl⟩

theorem loops_terminate_witness :
    (∀ b v : Int, ∃ fuel0, ∀ fuel, fuel0 ≤ fuel →
      (∃ r, wrapNegative 8 fuel b v = some r) ∧
      (∃ r, wrapOverflow 8 fuel b v = some r)) ∧
    (∀ (fuel : Nat) (b v : Int), v < 0 →
      wrapNegative 8 (fuel + 1) b v = wrapNegative 8 fuel (b - 1) (v + (8 : Nat)) ∧
      0 < (-v).toNat ∧
      (-(v + (8 : Nat))).toNat = (-v).toNat - 8) ∧
    (∀ (fuel : Nat) (b v : Int), v ≥ ((8 : Nat) : Int) →
      wrapOverflow 8 (fuel + 1) b v = wrapOverflow 8 fuel (b + 1) (v - (8 : Nat)) ∧
      0 < (v - (8 : Nat) + 1).toNat ∧
      (v - (8 : Nat) - (8 : Nat) + 1).toNat = (v - (8 : Nat) + 1).toNat - 8) ∧
    (∃ fuel0, ∀ fuel, fuel0 ≤ fuel →
      getNeighbor ⟨some ⟨8⟩, 8⟩ fuel ⟨2, 5, 5⟩ ⟨-9, 17, 3⟩ ⟨-20, 5, 0⟩ ≠ .outOfFuel ∧
      (some (⟨8⟩ : Layer) ≠ none →
        ∃ k, getNeighbor ⟨some ⟨8⟩, 8⟩ fuel ⟨2, 5, 5⟩ ⟨-9, 17, 3⟩ ⟨-20, 5, 0⟩
          = .returned k) ∧
      getNeighborsAndDistances ⟨some ⟨8⟩, 8⟩ fuel ⟨2, 5, 5⟩ ⟨-9, 17, 3⟩ 26
        (some []) (some []) (some []) ≠ .outOfFuel ∧
      (some (⟨8⟩ : Layer) ≠ none → some ([] : List VoxelKey) ≠ none →
        some ([] : List Distance) ≠ none → some ([] : List Vec3) ≠ none →
        ∃ out, (getNeighborsAndDistances ⟨some ⟨8⟩, 8⟩ fuel ⟨2, 5, 5⟩ ⟨-9, 17, 3⟩ 26
          (some []) (some []) (some [])).final = some out)) :=
  loops_terminate ⟨some ⟨8⟩, 8⟩ (by decide) ⟨2, 5, 5⟩ ⟨-9, 17, 3⟩ ⟨-20, 5, 0⟩ 26
    (some []) (some []) (some [])

/-! ## Claims on construction and attachment -/

/-- C13: attachment, through the layer-taking constructor and through `setLayer`
alike, fails with the fatal check if and only if the layer pointer is null or the layer
reports `voxels_per_side == 0`; otherwise it succeeds and the resolver holds the layer
and caches exactly the layer's `voxels_per_side`. -/
theorem attach_checks (t : NeighborTools) (layer : Option Layer) :
    (NeighborTools.fromLayer layer = .checkFailed ↔
      (layer = none ∨ ∃ L, layer = some L ∧ L.voxels_per_side = 0)) ∧
    (NeighborTools.setLayer t layer = .checkFailed ↔
      (layer = none ∨ ∃ L, layer = some L ∧ L.voxels_per_side = 0)) ∧
    (∀ L, layer = some L → L.voxels_per_side ≠ 0 →
      NeighborTools.fromLayer layer = .returned ⟨some L, L.voxels_per_side⟩ ∧
      NeighborTools.setLayer t layer = .returned ⟨some L, L.voxels_per_side⟩) ∧
    ((NeighborTools.fromLayer layer = .checkFailed ∨
        ∃ L, NeighborTools.fromLayer layer = .returned ⟨some L, L.voxels_per_side⟩) ∧
      (NeighborTools.setLayer t layer = .checkFailed ∨
        ∃ L, NeighborTools.setLayer t layer = .returned ⟨some L, L.voxels_per_side⟩)) := by
  cases layer with
  | none => simp [NeighborTools.fromLayer, NeighborTools.setLayer]
  | some L =>
    by_cases h0 : L.voxels_per_side = 0
    · simp [NeighborTools.fromLayer, NeighborTools.setLayer, h0]
    · refine ⟨by simp [NeighborTools.fromLayer, h0], by simp [NeighborTools.setLayer, h0],
        ?_, ?_⟩
      · intro L1 h1 h2
        cases h1
        simp [NeighborTools.fromLayer, NeighborTools.setLayer, h0]
      · exact ⟨Or.inr ⟨L, by simp [NeighborTools.fromLayer, h0]⟩,
          Or.inr ⟨L, by simp [NeighborTools.setLayer, h0]⟩⟩

/-- C14 does not hold on the code: a default-constructed resolver whose uninitialised
`layer_` is not null passes `CHECK_NOTNULL(layer_)`, and with `voxels_per_side_ = 0`
neither query fails with the fatal check: `getNeighbor` and `getNeighborsAndDistances`
are still in the loops of the first axis after any number of rounds.  Only when
`layer_` happens to be null do both queries fail at the check. -/
theorem unattached_query_not_guarded (L : Layer) (fuel : Nat) (B V D : Vec3)
    (ns : List VoxelKey) (ds : List Distance) (dirs : List Vec3) :
    (NeighborTools.defaultConstructed (some L)).voxels_per_side_ = 0 ∧
    getNeighbor (NeighborTools.defaultConstructed (some L)) fuel B V D = .outOfFuel ∧
    getNeighbor (NeighborTools.defaultConstructed (some L)) fuel B V D ≠ .checkFailed ∧
    getNeighborsAndDistances (NeighborTools.defaultConstructed (some L)) fuel B V 26
      (some ns) (some ds) (some dirs) = .outOfFuel ∧
    getNeighborsAndDistances (NeighborTools.defaultConstructed (some L)) fuel B V 26
      (some ns) (some ds) (some dirs) ≠ .checkFailed ∧
    getNeighbor (NeighborTools.defaultConstructed none) fuel B V D = .checkFailed ∧
    getNeighborsAndDistances (NeighborTools.defaultConstructed none) fuel B V 26
      (some ns) (some ds) (some dirs) = .checkFailed := by
  have e : getNeighborsAndDistances (NeighborTools.defaultConstructed (some L)) fuel B V 26
      (some ns) (some ds) (some dirs) = .outOfFuel := by
    simp [getNeighborsAndDistances, NeighborTools.defaultConstructed, reserveThrows,
      enumerateShells, faceI, faceJ, axes, signs, emplaceNeighbor, getNeighbor_zero_edge,
      Outcome.andThen, Outcome.toOutputs]
  refine ⟨rfl, getNeighbor_zero_edge L fuel B V D, ?_, e, ?_, ?_, ?_⟩
  · rw [show NeighborTools.defaultConstructed (some L) = ⟨some L, 0⟩ from rfl,
      getNeighbor_zero_edge L fuel B V D]
    simp
  · rw [e]; simp
  · simp [getNeighbor, NeighborTools.defaultConstructed]
  · simp [getNeighborsAndDistances, NeighborTools.defaultConstructed]

/-! ## Algebra of the floor-division wrap -/

/-- The wrap of a canonical voxel by the zero direction is the source key. -/
theorem floorWrap_zero (n : Nat) (B V : Vec3) (hV : Canonical n V) :
    floorWrap n B V ⟨0, 0, 0⟩ = (B, V) := by
  obtain ⟨⟨p1, p2⟩, ⟨q1, q2⟩, ⟨r1, r2⟩⟩ := hV
  simp only [floorWrap, add_zero, Int.emod_eq_of_lt p1 p2, Int.emod_eq_of_lt q1 q2,
    Int.emod_eq_of_lt r1 r2, Int.ediv_eq_zero_of_lt p1 p2, Int.ediv_eq_zero_of_lt q1 q2,
    Int.ediv_eq_zero_of_lt r1 r2]

/-- The wrap determines the direction: two directions with one wrapped key agree. -/
theorem floorWrap_injective (n : Nat) (B V : Vec3) :
    Function.Injective (floorWrap n B V) := by
  intro D1 D2 h
  obtain ⟨x1, y1, z1⟩ := floorWrap_global n B V D1
  obtain ⟨x2, y2, z2⟩ := floorWrap_global n B V D2
  rw [h] at x1 y1 z1
  obtain ⟨a1, b1, c1⟩ := D1
  obtain ⟨a2, b2, c2⟩ := D2
  simp only at x1 y1 z1 x2 y2 z2
  have hx : a1 = a2 := by linarith
  have hy : b1 = b2 := by linarith
  have hz : c1 = c2 := by linarith
  rw [hx, hy, hz]

/-- Wrapping back along the opposite direction returns to a canonical source. -/
theorem floorWrap_neg_back (n : Nat) (hn : 0 < n) (B V D : Vec3) (hV : Canonical n V) :
    floorWrap n (floorWrap n B V D).1 (floorWrap n B V D).2 D.neg = (B, V) := by
  obtain ⟨px, py, pz⟩ := hV
  have bx := wrap_back n hn V.x D.x px
  have by1 := wrap_back n hn V.y D.y py
  have bz := wrap_back n hn V.z D.z pz
  simp only [floorWrap, Vec3.neg, bx.2, by1.2, bz.2, add_assoc, bx.1, by1.1, bz.1, add_zero]

/-- One axis of two successive wraps. -/
theorem wrap_add (n : Nat) (hn : 0 < n) (v d1 d2 : Int) :
    (v + d1) / (n : Int) + ((v + d1) % (n : Int) + d2) / (n : Int)
      = (v + (d1 + d2)) / (n : Int) ∧
    ((v + d1) % (n : Int) + d2) % (n : Int) = (v + (d1 + d2)) % (n : Int) := by
  have hn0 : (n : Int) ≠ 0 := by omega
  have h := Int.emod_add_ediv (v + d1) n
  have e : v + (d1 + d2) = ((v + d1) % (n : Int) + d2) + (n : Int) * ((v + d1) / (n : Int)) := by
    linarith
  rw [e, Int.add_mul_ediv_left _ _ hn0, Int.add_mul_emod_self_left]
  exact ⟨by ring, rfl⟩

/-- Two successive wraps are the wrap of the summed direction. -/
theorem floorWrap_add (n : Nat) (hn : 0 < n) (B V D1 D2 : Vec3) :
    floorWrap n (floorWrap n B V D1).1 (floorWrap n B V D1).2 D2
      = floorWrap n B V (D1.add D2) := by
  have ax := wrap_add n hn V.x D1.x D2.x
  have ay := wrap_add n hn V.y D1.y D2.y
  have az := wrap_add n hn V.z D1.z D2.z
  simp only [floorWrap, Vec3.add, add_assoc, ax.1, ay.1, az.1, ax.2, ay.2, az.2]

/-! ## The enumeration from a canonical source -/

theorem emplaceNeighbor_of (t : NeighborTools) (fuel : Nat) (B V : Vec3)
    (hg : ∀ D, UnitDirection D →
      getNeighbor t fuel B V D = .returned (floorWrap t.voxels_per_side_ B V D))
    (d : Distance) (s : EnumState) (hD : UnitDirection s.direction) :
    emplaceNeighbor t fuel B V d s =
      .returned ⟨s.direction, s.neighbors ++ [floorWrap t.voxels_per_side_ B V s.direction],
        s.distances ++ [d], s.directions ++ [s.direction]⟩ := by
  simp [emplaceNeighbor, hg s.direction hD]

/-- The closed form of the whole call, given the closed form of every `getNeighbor`
call on a direction of the 3x3x3 neighbourhood. -/
theorem getNeighborsAndDistances_eq_of (t : NeighborTools) (L : Layer)
    (ht : t.layer_ = some L) (fuel : Nat) (B V : Vec3)
    (hg : ∀ D, UnitDirection D →
      getNeighbor t fuel B V D = .returned (floorWrap t.voxels_per_side_ B V D))
    (c : Int) (hc : 0 ≤ c) (ns : List VoxelKey) (ds : List Distance) (dirs : List Vec3) :
    getNeighborsAndDistances t fuel B V c (some ns) (some ds) (some dirs) =
      .returned ⟨ns ++ (shellDirections c).map (floorWrap t.voxels_per_side_ B V),
        ds ++ shellDistances c, dirs ++ shellDirections c⟩ := by
  have e := fun d s hD => emplaceNeighbor_of t fuel B V hg d s hD
  have hc2 : ¬ c < 0 := by omega
  by_cases h6 : c > 6
  · by_cases h18 : c > 18
    · simp [getNeighborsAndDistances, reserveThrows, ht, hc2,
        enumerateShells, faceI, faceJ, edgeI, edgeJ, edgeK, cornerI, cornerJ, cornerK,
        axes, signs, Outcome.andThen, Outcome.toOutputs, EnumState.outputs,
        EnumState.assign, Vec3.setCoeff, Vec3.zero, e,
        UnitDirection, h6, h18, shellDirections, shellDistances, faceShell, edgeShell,
        cornerShell, List.replicate]
    · simp [getNeighborsAndDistances, reserveThrows, ht, hc2,
        enumerateShells, faceI, faceJ, edgeI, edgeJ, edgeK,
        axes, signs, Outcome.andThen, Outcome.toOutputs, EnumState.outputs,
        EnumState.assign, Vec3.setCoeff, Vec3.zero, e,
        UnitDirection, h6, h18, shellDirections, shellDistances, faceShell, edgeShell,
        List.replicate]
  · have h18 : ¬ c > 18 := by omega
    simp [getNeighborsAndDistances, reserveThrows, ht, hc2,
      enumerateShells, faceI, faceJ,
      axes, signs, Outcome.andThen, Outcome.toOutputs, EnumState.outputs,
      EnumState.assign, Vec3.setCoeff, Vec3.zero, e,
      UnitDirection, h6, h18, shellDirections, shellDistances, faceShell,
      List.replicate]

/-- From a canonical source two condition tests per loop are enough for the whole
enumeration. -/
theorem getNeighborsAndDistances_canonical (t : NeighborTools) (L : Layer)
    (ht : t.layer_ = some L) (hn : 0 < t.voxels_per_side_) (fuel : Nat) (B V : Vec3)
    (h : 2 ≤ fuel) (hV : Canonical t.voxels_per_side_ V) (c : Int) (hc : 0 ≤ c)
    (ns : List VoxelKey) (ds : List Distance) (dirs : List Vec3) :
    getNeighborsAndDistances t fuel B V c (some ns) (some ds) (some dirs) =
      .returned ⟨ns ++ (shellDirections c).map (floorWrap t.voxels_per_side_ B V),
        ds ++ shellDistances c, dirs ++ shellDirections c⟩ :=
  getNeighborsAndDistances_eq_of t L ht fuel B V
    (fun D hD => getNeighbor_step t L ht hn fuel B V D h hV hD) c hc ns ds dirs

/-- No direction is enumerated twice. -/
theorem shellDirections_nodup (c : Int) : (shellDirections c).Nodup := by
  by_cases h6 : c > 6
  · by_cases h18 : c > 18
    · rw [shellDirections_corner c h18]; decide
    · rw [shellDirections_edge c h6 (by omega)]; decide
  · rw [shellDirections_face c (by omega)]; decide

/-- The centre of the neighbourhood is not enumerated. -/
theorem zero_not_mem_shellDirections (c : Int) :
    (⟨0, 0, 0⟩ : Vec3) ∉ shellDirections c := by
  by_cases h6 : c > 6
  · by_cases h18 : c > 18
    · rw [shellDirections_corner c h18]; decide
    · rw [shellDirections_edge c h6 (by omega)]; decide
  · rw [shellDirections_face c (by omega)]; decide

/-- The enumerated (direction, distance) pairs are closed under negating the
direction. -/
theorem shell_zip_symmetric (c : Int) :
    ∀ e ∈ (shellDirections c).zip (shellDistances c),
      (e.1.neg, e.2) ∈ (shellDirections c).zip (shellDistances c) := by
  by_cases h6 : c > 6
  · by_cases h18 : c > 18
    · rw [shellDirections_corner c h18, shellDistances_corner c h18]; decide
    · rw [shellDirections_edge c h6 (by omega), shellDistances_edge c h6 (by omega)]
      decide
  · rw [shellDirections_face c (by omega), shellDistances_face c (by omega)]; decide

/-! ## Further claims on `getNeighborsAndDistances` -/

/-- C15: the enumeration order is the reference order and the shells are cumulative
prefixes: for connectivity 26 on empty outputs the directions are the six unit vectors
by axes 0, 1, 2, negative then positive, then the edge shell by axis pairs (0,1), (1,2),
(2,0), each with its four sign combinations, then the eight corner sign combinations in
nested order x, y, z from `(-1,-1,-1)` to `(1,1,1)`; the output for connectivity 6 is
the first 6 entries of that output and the output for connectivity 18 its first 18. -/
theorem reference_order (t : NeighborTools) (L : Layer) (ht : t.layer_ = some L)
    (hn : 0 < t.voxels_per_side_) (fuel : Nat) (B V : Vec3) (h : fuelAround V ≤ fuel) :
    ∃ out6 out18 out26,
      getNeighborsAndDistances t fuel B V 6 (some []) (some []) (some [])
        = .returned out6 ∧
      getNeighborsAndDistances t fuel B V 18 (some []) (some []) (some [])
        = .returned out18 ∧
      getNeighborsAndDistances t fuel B V 26 (some []) (some []) (some [])
        = .returned out26 ∧
      out26.directions =
        [⟨-1, 0, 0⟩, ⟨1, 0, 0⟩, ⟨0, -1, 0⟩, ⟨0, 1, 0⟩, ⟨0, 0, -1⟩, ⟨0, 0, 1⟩,
         ⟨-1, -1, 0⟩, ⟨-1, 1, 0⟩, ⟨1, -1, 0⟩, ⟨1, 1, 0⟩,
         ⟨0, -1, -1⟩, ⟨0, -1, 1⟩, ⟨0, 1, -1⟩, ⟨0, 1, 1⟩,
         ⟨-1, 0, -1⟩, ⟨1, 0, -1⟩, ⟨-1, 0, 1⟩, ⟨1, 0, 1⟩,
         ⟨-1, -1, -1⟩, ⟨-1, -1, 1⟩, ⟨-1, 1, -1⟩, ⟨-1, 1, 1⟩,
         ⟨1, -1, -1⟩, ⟨1, -1, 1⟩, ⟨1, 1, -1⟩, ⟨1, 1, 1⟩] ∧
      out26.distances = List.replicate 6 Distance.one ++
        List.replicate 12 Distance.kSqrt2 ++ List.replicate 8 Distance.kSqrt3 ∧
      out26.neighbors.length = 26 ∧
      out6 = ⟨out26.neighbors.take 6, out26.distances.take 6, out26.directions.take 6⟩ ∧
      out18 =
        ⟨out26.neighbors.take 18, out26.distances.take 18, out26.directions.take 18⟩ := by
  refine ⟨_, _, _,
    getNeighborsAndDistances_eq t L ht hn fuel B V h 6 (by decide) [] [] [],
    getNeighborsAndDistances_eq t L ht hn fuel B V h 18 (by decide) [] [] [],
    getNeighborsAndDistances_eq t L ht hn fuel B V h 26 (by decide) [] [] [], ?_⟩
  rw [shellDirections_corner 26 (by decide), shellDistances_corner 26 (by decide),
    shellDirections_edge 18 (by decide) (by decide),
    shellDistances_edge 18 (by decide) (by decide),
    shellDirections_face 6 (by decide), shellDistances_face 6 (by decide)]
  refine ⟨rfl, rfl, by simp [faceShell, edgeShell, cornerShell], ?_, ?_⟩
  · simp [faceShell, edgeShell, cornerShell, List.replicate]
  · simp [faceShell, edgeShell, cornerShell, List.replicate]

theorem reference_order_witness :
    ∃ out6 out18 out26,
      getNeighborsAndDistances ⟨some ⟨8⟩, 8⟩ 9 ⟨2, 5, 5⟩ ⟨0, 3, 2⟩ 6 (some []) (some []) (some [])
        = .returned out6 ∧
      getNeighborsAndDistances ⟨some ⟨8⟩, 8⟩ 9 ⟨2, 5, 5⟩ ⟨0, 3, 2⟩ 18 (some []) (some []) (some [])
        = .returned out18 ∧
      getNeighborsAndDistances ⟨some ⟨8⟩, 8⟩ 9 ⟨2, 5, 5⟩ ⟨0, 3, 2⟩ 26 (some []) (some []) (some [])
        = .returned out26 ∧
      out26.directions =
        [⟨-1, 0, 0⟩, ⟨1, 0, 0⟩, ⟨0, -1, 0⟩, ⟨0, 1, 0⟩, ⟨0, 0, -1⟩, ⟨0, 0, 1⟩,
         ⟨-1, -1, 0⟩, ⟨-1, 1, 0⟩, ⟨1, -1, 0⟩, ⟨1, 1, 0⟩,
         ⟨0, -1, -1⟩, ⟨0, -1, 1⟩, ⟨0, 1, -1⟩, ⟨0, 1, 1⟩,
         ⟨-1, 0, -1⟩, ⟨1, 0, -1⟩, ⟨-1, 0, 1⟩, ⟨1, 0, 1⟩,
         ⟨-1, -1, -1⟩, ⟨-1, -1, 1⟩, ⟨-1, 1, -1⟩, ⟨-1, 1, 1⟩,
         ⟨1, -1, -1⟩, ⟨1, -1, 1⟩, ⟨1, 1, -1⟩, ⟨1, 1, 1⟩] ∧
      out26.distances = List.replicate 6 Distance.one ++
        List.replicate 12 Distance.kSqrt2 ++ List.replicate 8 Distance.kSqrt3 ∧
      out26.neighbors.length = 26 ∧
      out6 = ⟨out26.neighbors.take 6, out26.distances.take 6, out26.directions.take 6⟩ ∧
      out18 =
        ⟨out26.neighbors.take 18, out26.distances.take 18, out26.directions.take 18⟩ :=
  reference_order ⟨some ⟨8⟩, 8⟩ ⟨8⟩ rfl (by decide) 9 ⟨2, 5, 5⟩ ⟨0, 3, 2⟩ (by decide)

/-- C16: `getNeighbor` composes additively: for every positive `voxels_per_side` `n`,
every `B` and all integer `V`, `D1`, `D2`, with enough fuel `getNeighbor(B, V, D1)`
returns a key `(B1, V1)`, and `getNeighbor(B1, V1, D2)` returns what
`getNeighbor(B, V, D1 + D2)` returns; the global coordinate `block * n + voxel` of a
result equals `B * n + V + D` on every axis. -/
theorem getNeighbor_additive (t : NeighborTools) (L : Layer) (ht : t.layer_ = some L)
    (hn : 0 < t.voxels_per_side_) (B V D1 D2 : Vec3) :
    ∃ fuel0, ∀ fuel, fuel0 ≤ fuel →
      ∃ B1 V1 k,
        getNeighbor t fuel B V D1 = .returned (B1, V1) ∧
        getNeighbor t fuel B1 V1 D2 = .returned k ∧
        getNeighbor t fuel B V (D1.add D2) = .returned k ∧
        (∀ i, i < 3 →
          B1.coeff i * t.voxels_per_side_ + V1.coeff i
            = B.coeff i * t.voxels_per_side_ + V.coeff i + D1.coeff i ∧
          k.1.coeff i * t.voxels_per_side_ + k.2.coeff i
            = B.coeff i * t.voxels_per_side_ + V.coeff i + (D1.coeff i + D2.coeff i)) := by
  refine ⟨fuelFor V D1 + fuelFor (floorWrap t.voxels_per_side_ B V D1).2 D2
    + fuelFor V (D1.add D2), fun fuel hf => ?_⟩
  refine ⟨(floorWrap t.voxels_per_side_ B V D1).1, (floorWrap t.voxels_per_side_ B V D1).2,
    floorWrap t.voxels_per_side_ B V (D1.add D2),
    getNeighbor_eq t L ht hn fuel B V D1 (by omega), ?_,
    getNeighbor_eq t L ht hn fuel B V (D1.add D2) (by omega), ?_⟩
  · rw [getNeighbor_eq t L ht hn fuel _ _ D2 (by omega),
      floorWrap_add t.voxels_per_side_ hn B V D1 D2]
  · obtain ⟨x1, y1, z1⟩ := floorWrap_global t.voxels_per_side_ B V D1
    obtain ⟨x2, y2, z2⟩ := floorWrap_global t.voxels_per_side_ B V (D1.add D2)
    intro i hi
    interval_cases i
    · exact ⟨x1, by simpa [Vec3.coeff, Vec3.add, add_assoc] using x2⟩
    · exact ⟨y1, by simpa [Vec3.coeff, Vec3.add, add_assoc] using y2⟩
    · exact ⟨z1, by simpa [Vec3.coeff, Vec3.add, add_assoc] using z2⟩

theorem getNeighbor_additive_witness :
    ∃ fuel0, ∀ fuel, fuel0 ≤ fuel →
      ∃ B1 V1 k,
        getNeighbor ⟨some ⟨8⟩, 8⟩ fuel ⟨2, 5, 5⟩ ⟨-9, 17, 3⟩ ⟨-20, 5, 0⟩
          = .returned (B1, V1) ∧
        getNeighbor ⟨some ⟨8⟩, 8⟩ fuel B1 V1 ⟨31, -2, 9⟩ = .returned k ∧
        getNeighbor ⟨some ⟨8⟩, 8⟩ fuel ⟨2, 5, 5⟩ ⟨-9, 17, 3⟩
          (Vec3.add ⟨-20, 5, 0⟩ ⟨31, -2, 9⟩) = .returned k ∧
        (∀ i, i < 3 →
          B1.coeff i * (8 : Nat) + V1.coeff i
            = Vec3.coeff ⟨2, 5, 5⟩ i * (8 : Nat) + Vec3.coeff ⟨-9, 17, 3⟩ i
              + Vec3.coeff ⟨-20, 5, 0⟩ i ∧
          k.1.coeff i * (8 : Nat) + k.2.coeff i
            = Vec3.coeff ⟨2, 5, 5⟩ i * (8 : Nat) + Vec3.coeff ⟨-9, 17, 3⟩ i
              + (Vec3.coeff ⟨-20, 5, 0⟩ i + Vec3.coeff ⟨31, -2, 9⟩ i)) :=
  getNeighbor_additive ⟨some ⟨8⟩, 8⟩ ⟨8⟩ rfl (by decide) ⟨2, 5, 5⟩ ⟨-9, 17, 3⟩
    ⟨-20, 5, 0⟩ ⟨31, -2, 9⟩

/-- C17: for every positive `voxels_per_side` (`n = 1` included), every block index
`B`, every canonical voxel `V` and every connectivity, the neighbour keys left by one
`getNeighborsAndDistances` call on empty outputs are pairwise distinct and none of
them is the source key `(B, V)`. -/
theorem neighbours_distinct (t : NeighborTools) (L : Layer) (ht : t.layer_ = some L)
    (hn : 0 < t.voxels_per_side_) (fuel : Nat) (B V : Vec3) (h : 2 ≤ fuel)
    (hV : Canonical t.voxels_per_side_ V) (c : Int) :
    ∃ out,
      (getNeighborsAndDistances t fuel B V c (some []) (some []) (some [])).final
        = some out ∧
      (0 ≤ c →
        getNeighborsAndDistances t fuel B V c (some []) (some []) (some [])
          = .returned out ∧ 6 ≤ out.neighbors.length) ∧
      out.neighbors.Nodup ∧ (B, V) ∉ out.neighbors := by
  by_cases hc : c < 0
  · refine ⟨⟨[], [], []⟩, ?_, fun h0 => absurd hc (by omega), List.nodup_nil,
      List.not_mem_nil _⟩
    rw [getNeighborsAndDistances_neg t L ht fuel B V c hc]; rfl
  · have e := getNeighborsAndDistances_canonical t L ht hn fuel B V h hV c (by omega)
      [] [] []
    refine ⟨_, by rw [e]; rfl, fun _ => ⟨e, ?_⟩, ?_, ?_⟩
    · simp only [List.nil_append, List.length_map]
      unfold shellDirections
      simp only [List.length_append]
      have : faceShell.length = 6 := rfl
      omega
    · simp only [List.nil_append]
      exact (shellDirections_nodup c).map (floorWrap_injective t.voxels_per_side_ B V)
    · simp only [List.nil_append, List.mem_map, not_exists, not_and]
      intro D hD hk
      rw [← floorWrap_zero t.voxels_per_side_ B V hV] at hk
      have := floorWrap_injective t.voxels_per_side_ B V hk
      subst this
      exact zero_not_mem_shellDirections c hD

theorem neighbours_distinct_witness :
    ∃ out,
      (getNeighborsAndDistances ⟨some ⟨1⟩, 1⟩ 2 ⟨2, 5, 5⟩ ⟨0, 0, 0⟩ 26
        (some []) (some []) (some [])).final = some out ∧
      ((0 : Int) ≤ 26 →
        getNeighborsAndDistances ⟨some ⟨1⟩, 1⟩ 2 ⟨2, 5, 5⟩ ⟨0, 0, 0⟩ 26
          (some []) (some []) (some []) = .returned out ∧ 6 ≤ out.neighbors.length) ∧
      out.neighbors.Nodup ∧ ((⟨2, 5, 5⟩, ⟨0, 0, 0⟩) : VoxelKey) ∉ out.neighbors :=
  neighbours_distinct ⟨some ⟨1⟩, 1⟩ ⟨1⟩ rfl (by decide) 2 ⟨2, 5, 5⟩ ⟨0, 0, 0⟩ (by decide)
    (by decide) 26

/-- C18: the neighbour relation is symmetric: for every positive `voxels_per_side`,
every canonical source key `K = (B, V)` and every connectivity `c`, if
`getNeighborsAndDistances(K, c)` on empty outputs leaves the entry `(K1, d, D)`, then
`getNeighborsAndDistances(K1, c)` on empty outputs returns and leaves the entry
`(K, d, -D)` with the same distance `d`. -/
theorem neighbour_symmetric (t : NeighborTools) (L : Layer) (ht : t.layer_ = some L)
    (hn : 0 < t.voxels_per_side_) (fuel : Nat) (B V : Vec3) (h : 2 ≤ fuel)
    (hV : Canonical t.voxels_per_side_ V) (c : Int) (K1 : VoxelKey) (d : Distance)
    (D : Vec3)
    (hE : HasEntry (getNeighborsAndDistances t fuel B V c (some []) (some []) (some []))
      K1 d D) :
    (∃ out, getNeighborsAndDistances t fuel K1.1 K1.2 c (some []) (some []) (some [])
      = .returned out) ∧
    HasEntry (getNeighborsAndDistances t fuel K1.1 K1.2 c (some []) (some []) (some []))
      (B, V) d D.neg := by
  obtain ⟨out, i, ho, hk, hd, hD⟩ := hE
  by_cases hc : c < 0
  · rw [getNeighborsAndDistances_neg t L ht fuel B V c hc] at ho
    simp only [Outcome.final, Option.some.injEq] at ho
    subst ho
    simp at hk
  · rw [getNeighborsAndDistances_canonical t L ht hn fuel B V h hV c (by omega) [] [] []]
      at ho
    simp only [Outcome.final, Option.some.injEq, List.nil_append] at ho
    subst ho
    simp only at hk hd hD
    rw [List.getElem?_map, hD] at hk
    simp only [Option.map_some', Option.some.injEq] at hk
    subst hk
    have hz : (D, d) ∈ (shellDirections c).zip (shellDistances c) :=
      List.mem_iff_getElem?.2 ⟨i, List.getElem?_zip_eq_some.2 ⟨hD, hd⟩⟩
    obtain ⟨j, hj⟩ := List.mem_iff_getElem?.1 (shell_zip_symmetric c (D, d) hz)
    obtain ⟨hj1, hj2⟩ := List.getElem?_zip_eq_some.1 hj
    have e := getNeighborsAndDistances_canonical t L ht hn fuel
      (floorWrap t.voxels_per_side_ B V D).1 (floorWrap t.voxels_per_side_ B V D).2 h
      (floorWrap_canonical t.voxels_per_side_ hn B V D) c (by omega) [] [] []
    refine ⟨⟨_, e⟩, _, j, by rw [e]; rfl, ?_, ?_, ?_⟩
    · simp only [List.nil_append]
      rw [List.getElem?_map]
      simp only at hj1
      rw [hj1]
      simp only [Option.map_some', Option.some.injEq]
      exact floorWrap_neg_back t.voxels_per_side_ hn B V D hV
    · simpa using hj2
    · simpa using hj1

theorem neighbour_symmetric_witness :
    (∃ out, getNeighborsAndDistances ⟨some ⟨8⟩, 8⟩ 2 ⟨1, 5, 5⟩ ⟨7, 3, 2⟩ 6
      (some []) (some []) (some []) = .returned out) ∧
    HasEntry (getNeighborsAndDistances ⟨some ⟨8⟩, 8⟩ 2 ⟨1, 5, 5⟩ ⟨7, 3, 2⟩ 6
      (some []) (some []) (some [])) (⟨2, 5, 5⟩, ⟨0, 3, 2⟩) Distance.one
      (Vec3.neg ⟨-1, 0, 0⟩) :=
  neighbour_symmetric ⟨some ⟨8⟩, 8⟩ ⟨8⟩ rfl (by decide) 2 ⟨2, 5, 5⟩ ⟨0, 3, 2⟩ (by decide)
    (by decide) 6 (⟨1, 5, 5⟩, ⟨7, 3, 2⟩) Distance.one ⟨-1, 0, 0⟩
    ⟨_, 0, rfl, rfl, rfl, rfl⟩

end voxblox
